import Mathlib

/-!
# slock: input loop, grab acquisition and session start-up

A shallow embedding of `slock.c`:

* `readpw`     : the event loop that owns the password buffer,
* `lockscreen` : the per-screen pointer/keyboard grab with bounded retry,
* `main`       : the part of `main` that locks every screen and then runs `readpw`.

Bytes (`char`) and keysyms are natural numbers; C flags (`running`, `failure`) are booleans.
Calls on the X display, writes to stderr and the `memcpy` into the password array are recorded,
in program order, in a log carried by the state.  An access outside `passwd[256]` or `buf[32]`
is undefined behaviour in C; the embedding returns `none` there.
-/

namespace Slock

/-! ## Constants taken from the X11 headers -/

/-- Event type `KeyPress` of `X.h`. -/
def KeyPress : Int := 2
/-- Event offset `RRScreenChangeNotify` of `randr.h`. -/
def RRScreenChangeNotify : Int := 0
/-- Rotation bit `RR_Rotate_90` of `randr.h`. -/
def RR_Rotate_90 : Nat := 2
/-- Rotation bit `RR_Rotate_270` of `randr.h`. -/
def RR_Rotate_270 : Nat := 8
/-- Grab reply `GrabSuccess` of `X.h`. -/
def GrabSuccess : Int := 0
/-- Grab reply `AlreadyGrabbed` of `X.h`. -/
def AlreadyGrabbed : Int := 1

def XK_BackSpace : Nat := 0xff08
def XK_Return : Nat := 0xff0d
def XK_Escape : Nat := 0xff1b
def XK_Select : Nat := 0xff60
def XK_Break : Nat := 0xff6b
def XK_KP_Space : Nat := 0xff80
def XK_KP_Enter : Nat := 0xff8d
def XK_KP_F1 : Nat := 0xff91
def XK_KP_F4 : Nat := 0xff94
def XK_KP_Add : Nat := 0xffab
def XK_KP_0 : Nat := 0xffb0
def XK_KP_9 : Nat := 0xffb9
def XK_KP_Equal : Nat := 0xffbd
def XK_F1 : Nat := 0xffbe
def XK_F35 : Nat := 0xffe0
def XK_0 : Nat := 0x0030
def XK_a : Nat := 0x0061
def XF86XK_MonBrightnessUp : Nat := 0x1008FF02
def XF86XK_MonBrightnessDown : Nat := 0x1008FF03
def XF86XK_AudioLowerVolume : Nat := 0x1008FF11
def XF86XK_AudioMute : Nat := 0x1008FF12
def XF86XK_AudioRaiseVolume : Nat := 0x1008FF13
def XF86XK_AudioPlay : Nat := 0x1008FF14
def XF86XK_AudioStop : Nat := 0x1008FF15
def XF86XK_AudioPrev : Nat := 0x1008FF16
def XF86XK_AudioNext : Nat := 0x1008FF17
def XF86XK_AudioMicMute : Nat := 0x1008FFB2

/-- Macro `IsKeypadKey` of `Xutil.h`. -/
abbrev IsKeypadKey (keysym : Nat) : Prop := XK_KP_Space ≤ keysym ∧ keysym ≤ XK_KP_Equal
/-- Macro `IsPrivateKeypadKey` of `Xutil.h`. -/
abbrev IsPrivateKeypadKey (keysym : Nat) : Prop := 0x11000000 ≤ keysym ∧ keysym ≤ 0x1100FFFF
/-- Macro `IsPFKey` of `Xutil.h`. -/
abbrev IsPFKey (keysym : Nat) : Prop := XK_KP_F1 ≤ keysym ∧ keysym ≤ XK_KP_F4
/-- Macro `IsFunctionKey` of `Xutil.h`. -/
abbrev IsFunctionKey (keysym : Nat) : Prop := XK_F1 ≤ keysym ∧ keysym ≤ XK_F35
/-- Macro `IsMiscFunctionKey` of `Xutil.h`. -/
abbrev IsMiscFunctionKey (keysym : Nat) : Prop := XK_Select ≤ keysym ∧ keysym ≤ XK_Break

/-! ## Data of slock.c -/

/-- The colour enum `enum { INIT, INPUT, FAILED, NUMCOLS }`. -/
def INIT : Nat := 0
def INPUT : Nat := 1
def FAILED : Nat := 2
def NUMCOLS : Nat := 3

/-- Size of `char passwd[256]` in `readpw`. -/
def sizeofPasswd : Nat := 256
/-- Size of `char buf[32]` in the key handler. -/
def sizeofBuf : Nat := 32
/-- Modulus of `unsigned int` arithmetic (`len`, `len + num`). -/
def UINT_MOD : Nat := 2 ^ 32

/-- The fields of `struct lock` the embedded code reads. -/
structure Lock where
  screen : Int
  root : Nat
  win : Nat
  bgmap : Nat
deriving DecidableEq, Repr

/-- One event as `readpw` sees it.  `type` is `ev.type`; for a key press `ksym` and `str` are
what `XLookupString` yields (the keysym and the bytes stored in `buf`, so `num = str.length`);
the remaining fields are those of an `XRRScreenChangeNotifyEvent`. -/
structure XEvent where
  type : Int
  ksym : Nat
  str : List Nat
  window : Nat
  rotation : Nat
  width : Nat
  height : Nat
deriving DecidableEq, Repr

/-- What `readpw` does to its surroundings, plus the `memcpy` into `passwd`. -/
inductive Action where
  | sendEvent (ksym : Nat)
  | cryptError
  | bell
  | memcpy (dst : Nat) (num : Nat)
  | setBackground (win : Nat) (bgmap : Nat)
  | clearWindow (win : Nat)
  | resizeWindow (win : Nat) (w : Nat) (h : Nat)
  | raiseWindow (win : Nat)
deriving DecidableEq, Repr

/-- Everything `readpw` is given or links against: its arguments (`rr`, `locks` with
`nscreens = locks.length`, `hash`), the library functions `crypt` (`none` is `NULL`) and
`iscntrl` (applied to `(int) buf[0]`), and `failonclear` of `config.h`. -/
structure Ctx where
  hash : List Nat
  crypt : List Nat → List Nat → Option (List Nat)
  iscntrl : Nat → Bool
  failonclear : Bool
  rrActive : Bool
  evbase : Int
  locks : List Lock

/-- The local variables of `readpw`, and the log of what it has done so far. -/
structure State where
  passwd : List Nat
  len : Nat
  running : Bool
  failure : Bool
  oldc : Nat
  log : List Action
deriving DecidableEq, Repr

/-- State on entry to the loop of `readpw`; `passwd` is not initialised, so its 256 bytes are
whatever `garbage` the stack holds. -/
def initState (garbage : List Nat) : State :=
  { passwd := garbage, len := 0, running := true, failure := false, oldc := INIT, log := [] }

/-! ## readpw -/

/-- The string a C function reads from a `char` array: the bytes before the first NUL. -/
def cstr (a : List Nat) : List Nat := a.takeWhile (fun ch => ch != 0)

/-- The keypad normalisation at the top of the key handler. -/
def normKeypad (ksym : Nat) : Nat :=
  if IsKeypadKey ksym then
    if ksym = XK_KP_Enter then XK_Return
    else if XK_KP_0 ≤ ksym ∧ ksym ≤ XK_KP_9 then (ksym - XK_KP_0) + XK_0
    else ksym
  else ksym

/-- The keysyms of the first ten `case` labels of the switch. -/
def isMediaKey (ksym : Nat) : Bool :=
  ksym == XF86XK_AudioPlay || ksym == XF86XK_AudioStop || ksym == XF86XK_AudioPrev ||
  ksym == XF86XK_AudioNext || ksym == XF86XK_AudioRaiseVolume ||
  ksym == XF86XK_AudioLowerVolume || ksym == XF86XK_AudioMute ||
  ksym == XF86XK_AudioMicMute || ksym == XF86XK_MonBrightnessDown ||
  ksym == XF86XK_MonBrightnessUp

/-- The branch `case XK_Return`. -/
def submit (c : Ctx) (s : State) : Option State :=
  if s.len < sizeofPasswd then
    let passwd := s.passwd.set s.len 0
    let inputhash := c.crypt (cstr passwd) c.hash
    let running := match inputhash with
      | none => s.running
      | some h => h != c.hash
    let log1 := match inputhash with
      | none => s.log ++ [Action.cryptError]
      | some _ => s.log
    some { passwd := List.replicate sizeofPasswd 0
           len := 0
           running := running
           failure := if running then true else s.failure
           oldc := s.oldc
           log := if running then log1 ++ [Action.bell] else log1 }
  else none

/-- The branch `case XK_Escape`. -/
def cancel (s : State) : State :=
  { s with passwd := List.replicate sizeofPasswd 0, len := 0 }

/-- The branch `case XK_BackSpace`. -/
def deleteLast (s : State) : Option State :=
  if s.len ≠ 0 then
    if s.len - 1 < sizeofPasswd then
      some { s with passwd := s.passwd.set (s.len - 1) 0, len := s.len - 1 }
    else none
  else some s

/-- The `default` branch. -/
def append (c : Ctx) (s : State) (buf : List Nat) : Option State :=
  let num := buf.length
  if num ≠ 0 ∧ c.iscntrl (buf.headD 0) = false ∧ (s.len + num) % UINT_MOD < sizeofPasswd then
    if s.len + num ≤ sizeofPasswd ∧ num ≤ sizeofBuf then
      some { s with passwd := s.passwd.take s.len ++ buf ++ s.passwd.drop (s.len + num)
                    len := (s.len + num) % UINT_MOD
                    log := s.log ++ [Action.memcpy s.len num] }
    else none
  else some s

/-- The value of `color` computed after the switch. -/
def color (c : Ctx) (len : Nat) (failure : Bool) : Nat :=
  if len ≠ 0 then INPUT else if failure || c.failonclear then FAILED else INIT

/-- The body of the repaint loop over all screens. -/
def repaint : List Lock → List Action
  | [] => []
  | l :: ls => Action.setBackground l.win l.bgmap :: Action.clearWindow l.win :: repaint ls

/-- The colour update that ends the key handler. -/
def recolor (c : Ctx) (s : State) : State :=
  if s.running = true ∧ s.oldc ≠ color c s.len s.failure then
    { s with oldc := color c s.len s.failure, log := s.log ++ repaint c.locks }
  else s

/-- The `switch (ksym)` statement. -/
def switchKey (c : Ctx) (s : State) (ksym : Nat) (buf : List Nat) : Option State :=
  if isMediaKey ksym = true then some { s with log := s.log ++ [Action.sendEvent ksym] }
  else if ksym = XK_Return then submit c s
  else if ksym = XK_Escape then some (cancel s)
  else if ksym = XK_BackSpace then deleteLast s
  else append c s buf

/-- The keysyms dropped by the `continue` before the switch. -/
abbrev discarded (ksym : Nat) : Prop :=
  IsFunctionKey ksym ∨ IsKeypadKey ksym ∨ IsMiscFunctionKey ksym ∨ IsPFKey ksym ∨
    IsPrivateKeypadKey ksym

/-- The branch `ev.type == KeyPress` of the loop body. -/
def keypress (c : Ctx) (s : State) (ev : XEvent) : Option State :=
  if discarded (normKeypad ev.ksym) then some s
  else (switchKey c s (normKeypad ev.ksym) ev.str).map (recolor c)

/-- The search loop of the screen-change branch: resize and clear the first lock whose window
is the event's window. -/
def screenChange (rre : XEvent) : List Lock → List Action
  | [] => []
  | l :: ls =>
    if l.win = rre.window then
      [ (if rre.rotation = RR_Rotate_90 ∨ rre.rotation = RR_Rotate_270
          then Action.resizeWindow l.win rre.height rre.width
          else Action.resizeWindow l.win rre.width rre.height),
        Action.clearWindow l.win ]
    else screenChange rre ls

/-- One pass through the body of the `while` loop. -/
def handleEvent (c : Ctx) (s : State) (ev : XEvent) : Option State :=
  if ev.type = KeyPress then keypress c s ev
  else if c.rrActive = true ∧ ev.type = c.evbase + RRScreenChangeNotify then
    some { s with log := s.log ++ screenChange ev c.locks }
  else some { s with log := s.log ++ c.locks.map (fun l => Action.raiseWindow l.win) }

/-- The loop `while (running && !XNextEvent(dpy, &ev))` run on the events `evs` that
`XNextEvent` delivers (it blocks until there is one and returns 0).  The result is the state
when the loop has ended (`running = false`) or is waiting for the event after `evs`. -/
def readpwLoop (c : Ctx) : State → List XEvent → Option State
  | s, [] => some s
  | s, ev :: evs =>
    if s.running = true then (handleEvent c s ev).bind (fun s1 => readpwLoop c s1 evs)
    else some s

/-- The function `readpw`. -/
def readpw (c : Ctx) (garbage : List Nat) (evs : List XEvent) : Option State :=
  readpwLoop c (initState garbage) evs

/-! ## lockscreen -/

/-- The X server as one `lockscreen` call meets it: the identifiers it hands out for the root
window, the lock window and the background pixmap, and its replies to the grab requests
(`pointer k` answers the k-th `XGrabPointer` call of this run, counted from 0, and
`keyboard k` the k-th `XGrabKeyboard` call). -/
structure XServer where
  root : Nat
  win : Nat
  bgmap : Nat
  pointer : Nat → Int
  keyboard : Nat → Int

/-- The variables `ptgrab` and `kbgrab` of the retry loop, with the number of grab calls made
so far (the position in the server's replies). -/
structure Grabs where
  ptgrab : Int
  kbgrab : Int
  ptCalls : Nat
  kbCalls : Nat
deriving DecidableEq, Repr

/-- Record of one iteration of the retry loop: the reply to `XGrabPointer` and to
`XGrabKeyboard` when the iteration made the call (`none` when it skipped it), and whether it
reached `usleep(100000)`. -/
structure Iter where
  pt : Option Int
  kb : Option Int
  slept : Bool
deriving DecidableEq, Repr

/-- The statement `if (ptgrab != GrabSuccess) ptgrab = XGrabPointer(...)`. -/
def grabPointer (X : XServer) (g : Grabs) : Grabs :=
  if g.ptgrab ≠ GrabSuccess then
    { g with ptgrab := X.pointer g.ptCalls, ptCalls := g.ptCalls + 1 }
  else g

/-- The statement `if (kbgrab != GrabSuccess) kbgrab = XGrabKeyboard(...)`. -/
def grabKeyboard (X : XServer) (g : Grabs) : Grabs :=
  if g.kbgrab ≠ GrabSuccess then
    { g with kbgrab := X.keyboard g.kbCalls, kbCalls := g.kbCalls + 1 }
  else g

/-- The record of the iteration that starts with the variables `g`. -/
def iterOf (X : XServer) (g : Grabs) (slept : Bool) : Iter :=
  { pt := if g.ptgrab ≠ GrabSuccess then some (X.pointer g.ptCalls) else none
    kb := if g.kbgrab ≠ GrabSuccess then some (X.keyboard g.kbCalls) else none
    slept := slept }

/-- Outcome of the retry loop: whether it left through `return lock`, the final `ptgrab` and
`kbgrab`, and the record of its iterations in order. -/
structure GrabRun where
  locked : Bool
  ptgrab : Int
  kbgrab : Int
  iters : List Iter
deriving DecidableEq, Repr

/-- The loop `for (i = 0, ptgrab = kbgrab = -1; i < 6; i++)`, with `n = 6 - i` iterations
still allowed. -/
def grabLoop (X : XServer) : Nat → Grabs → GrabRun
  | 0, g => { locked := false, ptgrab := g.ptgrab, kbgrab := g.kbgrab, iters := [] }
  | n + 1, g =>
    let g2 := grabKeyboard X (grabPointer X g)
    if g2.ptgrab = GrabSuccess ∧ g2.kbgrab = GrabSuccess then
      { locked := true, ptgrab := g2.ptgrab, kbgrab := g2.kbgrab, iters := [iterOf X g false] }
    else if (g2.ptgrab ≠ AlreadyGrabbed ∧ g2.ptgrab ≠ GrabSuccess) ∨
        (g2.kbgrab ≠ AlreadyGrabbed ∧ g2.kbgrab ≠ GrabSuccess) then
      { locked := false, ptgrab := g2.ptgrab, kbgrab := g2.kbgrab,
        iters := [iterOf X g false] }
    else
      { grabLoop X n g2 with iters := iterOf X g true :: (grabLoop X n g2).iters }

/-- The two messages `lockscreen` can print. -/
inductive Diag where
  | pointer (screen : Int)
  | keyboard (screen : Int)
deriving DecidableEq, Repr

/-- What a call of `lockscreen` returns and does: the lock (`none` is `NULL`), the record of
the retry loop and the lines written to stderr. -/
structure LockResult where
  lock : Option Lock
  iters : List Iter
  stderr : List Diag
deriving DecidableEq, Repr

/-- The function `lockscreen`.  `dpyNull` says whether `dpy == NULL`, `mallocOk` whether
`malloc` returned a lock. -/
def lockscreen (dpyNull : Bool) (screen : Int) (mallocOk : Bool) (X : XServer) : LockResult :=
  if dpyNull = true ∨ screen < 0 ∨ mallocOk = false then
    { lock := none, iters := [], stderr := [] }
  else
    let r := grabLoop X 6 { ptgrab := -1, kbgrab := -1, ptCalls := 0, kbCalls := 0 }
    if r.locked = true then
      { lock := some { screen := screen, root := X.root, win := X.win, bgmap := X.bgmap }
        iters := r.iters
        stderr := [] }
    else
      { lock := none
        iters := r.iters
        stderr := (if r.ptgrab ≠ GrabSuccess then [Diag.pointer screen] else []) ++
                  (if r.kbgrab ≠ GrabSuccess then [Diag.keyboard screen] else []) }

/-- Number of `XGrabPointer` calls in a record. -/
def ptCallCount (its : List Iter) : Nat := (its.filter (fun it => it.pt.isSome)).length
/-- Number of `XGrabKeyboard` calls in a record. -/
def kbCallCount (its : List Iter) : Nat := (its.filter (fun it => it.kb.isSome)).length
/-- Total time slept, in milliseconds (`usleep(100000)` is 100 ms). -/
def sleptMs (its : List Iter) : Nat := 100 * (its.filter (fun it => it.slept)).length

/-- The most recent reply to `XGrabPointer` in a record. -/
def lastPt : List Iter → Option Int
  | [] => none
  | it :: its => match lastPt its with
    | some r => some r
    | none => it.pt

/-- The most recent reply to `XGrabKeyboard` in a record. -/
def lastKb : List Iter → Option Int
  | [] => none
  | it :: its => match lastKb its with
    | some r => some r
    | none => it.kb

/-- An iteration in which a grab call got a reply other than `GrabSuccess` and
`AlreadyGrabbed`. -/
def Iter.hard (it : Iter) : Prop :=
  (∃ r, it.pt = some r ∧ r ≠ GrabSuccess ∧ r ≠ AlreadyGrabbed) ∨
  (∃ r, it.kb = some r ∧ r ≠ GrabSuccess ∧ r ≠ AlreadyGrabbed)

/-! ## main -/

/-- A key press with keysym `ksym` for which `XLookupString` stores `str`. -/
def key (ksym : Nat) (str : List Nat) : XEvent :=
  { type := KeyPress, ksym := ksym, str := str, window := 0, rotation := 0, width := 0,
    height := 0 }

/-- Library `iscntrl` in the C locale. -/
def iscntrlC (ch : Nat) : Bool := ch < 32 || ch == 127

/-- A toy `crypt`: the hash of a key is the key with every byte incremented. -/
def cryptToy (k _setting : List Nat) : Option (List Nat) := some (k.map (· + 1))

/-- One screen, reference hash of the password "abc" under `cryptToy`. -/
def ctxAbc (failonclear : Bool) : Ctx :=
  { hash := [98, 99, 100], crypt := cryptToy, iscntrl := iscntrlC, failonclear := failonclear,
    rrActive := false, evbase := 0,
    locks := [{ screen := 0, root := 1, win := 2, bgmap := 3 }] }

/-- Stack contents that are not zero, for the uninitialised `passwd`. -/
def garbage7 : List Nat := List.replicate 256 7

/-- The key presses that type "abc" and press Return. -/
def typeAbc : List XEvent := [key 97 [97], key 98 [98], key 99 [99], key XK_Return [13]]

/-- The state `readpw` ends in after `typeAbc` with the reference hash of "abc". -/
def doneAbc : State :=
  { passwd := List.replicate 256 0, len := 0, running := false, failure := false,
    oldc := INPUT,
    log := [Action.memcpy 0 1, Action.setBackground 2 3, Action.clearWindow 2,
            Action.memcpy 1 1, Action.memcpy 2 1] }

/-- A server whose pointer is held by another client for good and whose keyboard is free. -/
def serverB : XServer :=
  { root := 1, win := 2, bgmap := 3, pointer := fun _ => AlreadyGrabbed,
    keyboard := fun _ => GrabSuccess }

/-- A server that grants both grabs at once. -/
def serverOk : XServer :=
  { root := 1, win := 2, bgmap := 3, pointer := fun _ => GrabSuccess,
    keyboard := fun _ => GrabSuccess }

/-! ## Vocabulary of the statements -/

/-- The string submitted from state `s` (the buffer with its terminator written at `len`) is
accepted: `crypt` returns a string equal to `hash`. -/
abbrev verifies (c : Ctx) (s : State) : Prop :=
  c.crypt (cstr (s.passwd.set s.len 0)) c.hash = some c.hash

/-- A press of Return or of the keypad Enter key. -/
abbrev isSubmitKey (ev : XEvent) : Prop :=
  ev.type = KeyPress ∧ (ev.ksym = XK_Return ∨ ev.ksym = XK_KP_Enter)

/-- A key press that reaches the `default` branch of the switch and for which `XLookupString`
stores exactly one byte that is not a control character. -/
abbrev isPrintableKey (c : Ctx) (ev : XEvent) : Prop :=
  ev.type = KeyPress ∧ ¬ discarded (normKeypad ev.ksym) ∧ isMediaKey (normKeypad ev.ksym) = false ∧
    normKeypad ev.ksym ≠ XK_Return ∧ normKeypad ev.ksym ≠ XK_Escape ∧
    normKeypad ev.ksym ≠ XK_BackSpace ∧ ev.str.length = 1 ∧ c.iscntrl (ev.str.headD 0) = false

/-- Invariant of the loop of `readpw`: the array has its 256 bytes, `len` leaves room for the
terminator, every `memcpy` made so far stayed below index 255, and every byte a `memcpy` has
stored at an index that is now at or beyond `len` is zero again. -/
structure Inv (s : State) : Prop where
  size : s.passwd.length = sizeofPasswd
  room : s.len < sizeofPasswd
  bound : ∀ d n, Action.memcpy d n ∈ s.log → d + n < sizeofPasswd
  wiped : ∀ d n i, Action.memcpy d n ∈ s.log → d ≤ i → i < d + n → s.len ≤ i →
    s.passwd[i]? = some 0

/-- A press of the BackSpace key. -/
abbrev isDeleteKey (ev : XEvent) : Prop := ev.type = KeyPress ∧ ev.ksym = XK_BackSpace

/-- A press of the Escape key. -/
abbrev isCancelKey (ev : XEvent) : Prop := ev.type = KeyPress ∧ ev.ksym = XK_Escape

/-- The colour on display is the one the key handler computes from the current state, or it
is still the initial `INIT` while `failonclear` is set. -/
abbrev Shown (c : Ctx) (s : State) : Prop :=
  s.oldc = color c s.len s.failure ∨ (c.failonclear = true ∧ s.oldc = INIT)

/-- The entry check of `lockscreen` sends the call back with `NULL`: `dpy == NULL`, or
`screen < 0`, or `malloc` gave no lock. -/
abbrev entryFails (dpyNull : Bool) (screen : Int) (mallocOk : Bool) : Prop :=
  dpyNull = true ∨ screen < 0 ∨ mallocOk = false

/-- Both calls of the repaint loop for every lock, in the order of the screens. -/
abbrev paintEvery (locks : List Lock) : List Action :=
  locks.flatMap (fun l => [Action.setBackground l.win l.bgmap, Action.clearWindow l.win])

/-! ## Lemmas on the key handler -/

theorem normKeypad_submit {k : Nat} (h : k = XK_Return ∨ k = XK_KP_Enter) :
    normKeypad k = XK_Return := by
  rcases h with h | h <;> subst h <;> decide

theorem not_discarded_Return : ¬ discarded XK_Return := by decide

theorem keypress_submit (c : Ctx) (s : State) (ev : XEvent)
    (h : ev.ksym = XK_Return ∨ ev.ksym = XK_KP_Enter) :
    keypress c s ev = (submit c s).map (recolor c) := by
  have hm : isMediaKey XK_Return = false := by decide
  simp [keypress, normKeypad_submit h, not_discarded_Return, switchKey, hm]

theorem count_bell_repaint (ls : List Lock) : (repaint ls).count Action.bell = 0 := by
  induction ls with
  | nil => rfl
  | cons l ls ih => simp [repaint, ih]

theorem recolor_fields (c : Ctx) (s : State) :
    (recolor c s).passwd = s.passwd ∧ (recolor c s).len = s.len ∧
    (recolor c s).running = s.running ∧ (recolor c s).failure = s.failure ∧
    (recolor c s).log.count Action.bell = s.log.count Action.bell := by
  unfold recolor
  split <;> simp [count_bell_repaint]

theorem memcpy_not_mem_repaint (ls : List Lock) (d n : Nat) :
    Action.memcpy d n ∉ repaint ls := by
  induction ls with
  | nil => simp [repaint]
  | cons l ls ih => simp [repaint, ih]

theorem memcpy_not_mem_screenChange (ev : XEvent) (ls : List Lock) (d n : Nat) :
    Action.memcpy d n ∉ screenChange ev ls := by
  induction ls with
  | nil => simp [screenChange]
  | cons l ls ih =>
    unfold screenChange
    split
    · split <;> simp
    · exact ih

theorem getElem?_splice (l buf : List Nat) (k i : Nat) (hk : k + buf.length ≤ l.length)
    (hi : k + buf.length ≤ i) :
    (l.take k ++ buf ++ l.drop (k + buf.length))[i]? = l[i]? := by
  have hlen : (l.take k ++ buf).length = k + buf.length := by
    simp [List.length_take]; omega
  rw [List.getElem?_append_right (by omega), hlen, List.getElem?_drop]
  congr 1; omega

/-! ## The loop invariant is kept by every branch -/

theorem inv_init (garbage : List Nat) (h : garbage.length = sizeofPasswd) :
    Inv (initState garbage) :=
  ⟨h, by simp [initState, sizeofPasswd], by simp [initState], by simp [initState]⟩

theorem inv_zeroed {s t : State} (hs : Inv s) (hp : t.passwd = List.replicate sizeofPasswd 0)
    (hl : t.len = 0) (hlog : ∀ d n, Action.memcpy d n ∈ t.log → Action.memcpy d n ∈ s.log) :
    Inv t := by
  refine ⟨by simp [hp], by simp [hl, sizeofPasswd], fun d n h => hs.bound d n (hlog d n h), ?_⟩
  intro d n i h _ hi _
  have := hs.bound d n (hlog d n h)
  rw [hp, List.getElem?_replicate]
  simp; omega

theorem inv_same {s t : State} (hs : Inv s) (hp : t.passwd = s.passwd) (hl : t.len = s.len)
    (hlog : ∀ d n, Action.memcpy d n ∈ t.log → Action.memcpy d n ∈ s.log) : Inv t :=
  ⟨by rw [hp]; exact hs.size, by rw [hl]; exact hs.room,
   fun d n h => hs.bound d n (hlog d n h),
   fun d n i h h1 h2 h3 => by rw [hp]; exact hs.wiped d n i (hlog d n h) h1 h2 (by omega)⟩

theorem inv_recolor (c : Ctx) {s : State} (hs : Inv s) : Inv (recolor c s) := by
  unfold recolor
  split
  · exact inv_same hs rfl rfl (by simp [memcpy_not_mem_repaint])
  · exact hs

theorem inv_submit (c : Ctx) {s : State} (hs : Inv s) :
    ∃ t, submit c s = some t ∧ Inv t := by
  have hr := hs.room
  simp only [submit, hr, if_true]
  refine ⟨_, rfl, inv_zeroed hs rfl rfl ?_⟩
  intro d n
  cases c.crypt (cstr (s.passwd.set s.len 0)) c.hash <;> simp <;> split <;> simp

theorem inv_cancel {s : State} (hs : Inv s) : Inv (cancel s) :=
  inv_zeroed hs rfl rfl (fun _ _ h => h)

theorem inv_deleteLast {s : State} (hs : Inv s) :
    ∃ t, deleteLast s = some t ∧ Inv t := by
  have hr := hs.room
  have hz := hs.size
  unfold deleteLast
  by_cases h0 : s.len = 0
  · simp [h0]; exact hs
  · have h1 : s.len - 1 < sizeofPasswd := by omega
    simp only [h0, h1, ne_eq, not_false_eq_true, if_true]
    refine ⟨_, rfl, ⟨by simp [hz], h1, hs.bound, ?_⟩⟩
    intro d n i h hd hn hi
    simp only at hi ⊢
    have hb := hs.bound d n h
    by_cases e : i = s.len - 1
    · subst e
      rw [List.getElem?_set_self]
      omega
    · rw [List.getElem?_set_ne (by omega)]
      exact hs.wiped d n i h hd hn (by omega)

theorem inv_append (c : Ctx) {s : State} (hs : Inv s) (buf : List Nat)
    (hb : buf.length ≤ sizeofBuf) : ∃ t, append c s buf = some t ∧ Inv t := by
  have hr := hs.room
  have hz := hs.size
  unfold append
  simp only
  split
  · next hc =>
    obtain ⟨h0, _, hlt⟩ := hc
    have hsum : s.len + buf.length < sizeofPasswd := by
      have : s.len + buf.length < UINT_MOD := by
        simp only [UINT_MOD, sizeofPasswd, sizeofBuf] at *; omega
      rwa [Nat.mod_eq_of_lt this] at hlt
    have hmod : (s.len + buf.length) % UINT_MOD = s.len + buf.length :=
      Nat.mod_eq_of_lt (by simp only [UINT_MOD, sizeofPasswd] at *; omega)
    have hc2 : s.len + buf.length ≤ sizeofPasswd ∧ buf.length ≤ sizeofBuf := ⟨by omega, hb⟩
    simp only [hc2, and_self, if_true, hmod]
    refine ⟨_, rfl, ⟨?_, hsum, ?_, ?_⟩⟩
    · simp [List.length_take, List.length_drop]; omega
    · intro d n h
      simp only [List.mem_append, List.mem_singleton, Action.memcpy.injEq] at h
      rcases h with h | ⟨rfl, rfl⟩
      · exact hs.bound d n h
      · exact hsum
    · intro d n i h hd hn hi
      simp only at hi ⊢
      simp only [List.mem_append, List.mem_singleton, Action.memcpy.injEq] at h
      rw [getElem?_splice _ _ _ _ (by omega) hi]
      rcases h with h | ⟨rfl, rfl⟩
      · exact hs.wiped d n i h hd hn (by omega)
      · omega
  · exact ⟨s, rfl, hs⟩

theorem inv_keypress (c : Ctx) {s : State} (hs : Inv s) (ev : XEvent)
    (hb : ev.str.length ≤ sizeofBuf) : ∃ t, keypress c s ev = some t ∧ Inv t := by
  unfold keypress
  split
  · exact ⟨s, rfl, hs⟩
  · have key : ∃ t, switchKey c s (normKeypad ev.ksym) ev.str = some t ∧ Inv t := by
      unfold switchKey
      split
      · exact ⟨_, rfl, inv_same hs rfl rfl (by simp)⟩
      · split
        · exact inv_submit c hs
        · split
          · exact ⟨_, rfl, inv_cancel hs⟩
          · split
            · exact inv_deleteLast hs
            · exact inv_append c hs ev.str hb
    obtain ⟨t, ht, hi⟩ := key
    exact ⟨recolor c t, by simp [ht], inv_recolor c hi⟩

theorem inv_handleEvent (c : Ctx) {s : State} (hs : Inv s) (ev : XEvent)
    (hb : ev.str.length ≤ sizeofBuf) : ∃ t, handleEvent c s ev = some t ∧ Inv t := by
  unfold handleEvent
  split
  · exact inv_keypress c hs ev hb
  · split
    · exact ⟨_, rfl, inv_same hs rfl rfl (by simp [memcpy_not_mem_screenChange])⟩
    · exact ⟨_, rfl, inv_same hs rfl rfl (by simp)⟩

theorem inv_readpwLoop (c : Ctx) (evs : List XEvent) :
    ∀ s : State, Inv s → (∀ ev ∈ evs, ev.str.length ≤ sizeofBuf) →
      ∃ t, readpwLoop c s evs = some t ∧ Inv t := by
  induction evs with
  | nil => intro s hs _; exact ⟨s, rfl, hs⟩
  | cons ev evs ih =>
    intro s hs hb
    unfold readpwLoop
    split
    · obtain ⟨t, ht, hi⟩ := inv_handleEvent c hs ev (hb ev (by simp))
      obtain ⟨u, hu, hj⟩ := ih t hi (fun e he => hb e (by simp [he]))
      exact ⟨u, by simp [ht, hu], hj⟩
    · exact ⟨s, rfl, hs⟩


theorem normKeypad_eq_Return {k : Nat} (h : normKeypad k = XK_Return) :
    k = XK_Return ∨ k = XK_KP_Enter := by
  unfold normKeypad at h
  simp only [IsKeypadKey, XK_KP_Space, XK_KP_Equal, XK_KP_Enter, XK_Return, XK_KP_0, XK_KP_9,
    XK_0] at *
  split at h
  · split at h
    · right; assumption
    · split at h
      · omega
      · omega
  · left; exact h

theorem recolor_running (c : Ctx) (s : State) : (recolor c s).running = s.running :=
  (recolor_fields c s).2.2.1

theorem submit_stop (c : Ctx) {s t : State} (h : submit c s = some t) (hr : s.running = true)
    (ht : t.running = false) : verifies c s := by
  unfold submit at h
  split at h
  · simp only [Option.some.injEq] at h
    subst h
    simp only at ht
    cases hcr : c.crypt (cstr (s.passwd.set s.len 0)) c.hash with
    | none => simp [hcr, hr] at ht
    | some x =>
      simp only [hcr, bne_eq_false_iff_eq] at ht
      simp [verifies, hcr, ht]
  · simp at h

theorem deleteLast_running {s t : State} (h : deleteLast s = some t) : t.running = s.running := by
  unfold deleteLast at h
  split at h
  · split at h
    · simp only [Option.some.injEq] at h; subst h; rfl
    · simp at h
  · simp only [Option.some.injEq] at h; subst h; rfl

theorem append_running (c : Ctx) {s t : State} {buf : List Nat} (h : append c s buf = some t) :
    t.running = s.running := by
  unfold append at h
  simp only at h
  split at h
  · split at h
    · simp only [Option.some.injEq] at h; subst h; rfl
    · simp at h
  · simp only [Option.some.injEq] at h; subst h; rfl

theorem handleEvent_stop (c : Ctx) {s t : State} {ev : XEvent}
    (h : handleEvent c s ev = some t) (hr : s.running = true) (ht : t.running = false) :
    isSubmitKey ev ∧ verifies c s := by
  unfold handleEvent at h
  split at h
  · next hty =>
    unfold keypress at h
    split at h
    · simp only [Option.some.injEq] at h; subst h; simp [hr] at ht
    · simp only [Option.map_eq_some'] at h
      obtain ⟨u, hu, rfl⟩ := h
      rw [recolor_running] at ht
      unfold switchKey at hu
      split at hu
      · simp only [Option.some.injEq] at hu; subst hu; simp [hr] at ht
      · split at hu
        · next hk => exact ⟨⟨hty, normKeypad_eq_Return hk⟩, submit_stop c hu hr ht⟩
        · split at hu
          · simp only [Option.some.injEq] at hu; subst hu; simp [cancel, hr] at ht
          · split at hu
            · rw [deleteLast_running hu, hr] at ht; simp at ht
            · rw [append_running c hu, hr] at ht; simp at ht
  · split at h <;>
    · simp only [Option.some.injEq] at h; subst h; simp [hr] at ht

theorem readpwLoop_stopped (c : Ctx) {s : State} (hr : s.running = false) (evs : List XEvent) :
    readpwLoop c s evs = some s := by
  cases evs <;> simp [readpwLoop, hr]

theorem readpwLoop_cons (c : Ctx) {s t : State} {ev : XEvent} (hr : s.running = true)
    (h : handleEvent c s ev = some t) (evs : List XEvent) :
    readpwLoop c s (ev :: evs) = readpwLoop c t evs := by
  simp [readpwLoop, hr, h]

theorem readpwLoop_stop (c : Ctx) (evs : List XEvent) :
    ∀ s t : State, readpwLoop c s evs = some t → s.running = true → t.running = false →
      ∃ pre ev post u, evs = pre ++ ev :: post ∧ readpwLoop c s pre = some u ∧
        u.running = true ∧ handleEvent c u ev = some t ∧ isSubmitKey ev ∧ verifies c u := by
  induction evs with
  | nil =>
    intro s t h hr ht
    simp only [readpwLoop, Option.some.injEq] at h
    subst h; simp [hr] at ht
  | cons ev evs ih =>
    intro s t h hr ht
    cases hev : handleEvent c s ev with
    | none => simp [readpwLoop, hr, hev] at h
    | some s1 =>
      rw [readpwLoop_cons c hr hev] at h
      cases h1 : s1.running with
      | false =>
        rw [readpwLoop_stopped c h1] at h
        simp only [Option.some.injEq] at h
        subst h
        exact ⟨[], ev, evs, s, rfl, rfl, hr, hev, handleEvent_stop c hev hr h1⟩
      | true =>
        obtain ⟨pre, e, post, u, he, hu, hur, hh, hk⟩ := ih s1 t h h1 ht
        refine ⟨ev :: pre, e, post, u, by simp [he], ?_, hur, hh, hk⟩
        rw [readpwLoop_cons c hr hev]; exact hu


/-! ## Lemmas on appending, deleting and the colour shown -/

theorem recolor_oldc (c : Ctx) {s : State} (hr : s.running = true) :
    (recolor c s).oldc = color c s.len s.failure := by
  unfold recolor
  split
  · rfl
  · next h => simp only [hr, true_and, not_not] at h; exact h

theorem recolor_shown (c : Ctx) {s : State} (h : s.oldc = color c s.len s.failure) :
    recolor c s = s := by
  simp [recolor, h]

theorem recolor_idem (c : Ctx) (s : State) : recolor c (recolor c s) = recolor c s := by
  cases hr : s.running with
  | true =>
    apply recolor_shown
    rw [recolor_oldc c hr, (recolor_fields c s).2.1, (recolor_fields c s).2.2.2.1]
  | false => simp [recolor, hr]

theorem handleEvent_printable (c : Ctx) (s : State) {ev : XEvent} (hp : isPrintableKey c ev) :
    handleEvent c s ev = (append c s ev.str).map (recolor c) := by
  obtain ⟨hty, hd, hm, h1, h2, h3, _, _⟩ := hp
  unfold handleEvent
  rw [if_pos hty]
  unfold keypress
  rw [if_neg hd]
  unfold switchKey
  simp [hm, h1, h2, h3]

theorem append_one (c : Ctx) {s : State} {buf : List Nat} (hb : buf.length = 1)
    (hc : c.iscntrl (buf.headD 0) = false) (hz : s.passwd.length = sizeofPasswd)
    (hl : s.len < sizeofPasswd) :
    ∃ t, append c s buf = some t ∧ t.len = min (s.len + 1) 255 ∧ t.running = s.running ∧
      t.failure = s.failure ∧ t.passwd.length = sizeofPasswd ∧ (s.len = 255 → t = s) := by
  unfold append
  simp only [sizeofPasswd] at hl hz
  simp only [hb, hc, sizeofPasswd, sizeofBuf, UINT_MOD]
  by_cases h : s.len + 1 < 256
  · have hmod : (s.len + 1) % 2 ^ 32 = s.len + 1 := Nat.mod_eq_of_lt (by omega)
    have h2 : s.len + 1 ≤ 256 := by omega
    simp only [hmod, h, h2, ne_eq, one_ne_zero, not_false_eq_true, and_self, if_true,
      Nat.one_le_ofNat]
    refine ⟨_, rfl, by simp; omega, rfl, rfl, ?_, by intro; omega⟩
    simp [List.length_take, List.length_drop, hb, hz]; omega
  · have hmod : (s.len + 1) % 2 ^ 32 = s.len + 1 := Nat.mod_eq_of_lt (by omega)
    simp only [hmod, h, and_false, if_false]
    exact ⟨s, rfl, by omega, rfl, rfl, hz, fun _ => rfl⟩

theorem printable_step (c : Ctx) {s : State} {ev : XEvent} (hp : isPrintableKey c ev)
    (hz : s.passwd.length = sizeofPasswd) (hl : s.len < sizeofPasswd)
    (hr : s.running = true) :
    ∃ t, handleEvent c s ev = some t ∧ t.len = min (s.len + 1) 255 ∧ t.running = true ∧
      t.passwd.length = sizeofPasswd ∧ t.oldc = INPUT ∧
      (s.len = 255 → s.oldc = INPUT → t = s) := by
  obtain ⟨u, hu, hlen, hrun, _, hsz, hsame⟩ := append_one c hp.2.2.2.2.2.2.1 hp.2.2.2.2.2.2.2 hz hl
  have hf := recolor_fields c u
  have hur : u.running = true := by rw [hrun, hr]
  have hne : u.len ≠ 0 := by rw [hlen]; omega
  refine ⟨recolor c u, by rw [handleEvent_printable c s hp, hu]; rfl, by rw [hf.2.1, hlen],
    by rw [hf.2.2.1, hur], by rw [hf.1, hsz], ?_, ?_⟩
  · rw [recolor_oldc c hur]; simp [color, hne]
  · intro h255 hold
    have := hsame h255
    subst this
    exact recolor_shown c (by rw [hold]; simp [color, hne])

theorem printable_run (c : Ctx) (evs : List XEvent) :
    ∀ s : State, s.passwd.length = sizeofPasswd → s.len < sizeofPasswd → s.running = true →
      (∀ ev ∈ evs, isPrintableKey c ev) →
      ∃ t, readpwLoop c s evs = some t ∧ t.len = min (s.len + evs.length) 255 ∧
        t.running = true ∧ t.passwd.length = sizeofPasswd ∧ (evs ≠ [] → t.oldc = INPUT) := by
  induction evs with
  | nil =>
    intro s hz hl hr _
    exact ⟨s, rfl, by simp only [sizeofPasswd] at hl; simp; omega, hr, hz, by simp⟩
  | cons ev evs ih =>
    intro s hz hl hr hp
    obtain ⟨u, hu, hlen, hur, huz, hold, _⟩ := printable_step c (hp ev (by simp)) hz hl hr
    have hul : u.len < sizeofPasswd := by rw [hlen]; simp only [sizeofPasswd]; omega
    obtain ⟨t, ht, htl, htr, htz, hto⟩ := ih u huz hul hur (fun e he => hp e (by simp [he]))
    refine ⟨t, by rw [readpwLoop_cons c hr hu]; exact ht, ?_, htr, htz, ?_⟩
    · rw [htl, hlen]; simp only [List.length_cons]; omega
    · intro _
      cases evs with
      | nil => simp only [readpwLoop, Option.some.injEq] at ht; rw [← ht]; exact hold
      | cons e es => exact hto (by simp)

theorem handleEvent_delete_empty (c : Ctx) {s : State} {ev : XEvent} (hk : isDeleteKey ev)
    (h0 : s.len = 0) : handleEvent c s ev = some (recolor c s) := by
  obtain ⟨hty, hk⟩ := hk
  have hn : normKeypad XK_BackSpace = XK_BackSpace := by decide
  have hd : ¬ discarded XK_BackSpace := by decide
  have hm : isMediaKey XK_BackSpace = false := by decide
  have h1 : XK_BackSpace ≠ XK_Return := by decide
  have h2 : XK_BackSpace ≠ XK_Escape := by decide
  unfold handleEvent
  rw [if_pos hty]
  unfold keypress
  rw [hk, hn, if_neg hd]
  unfold switchKey
  simp [hm, h1, h2, deleteLast, h0]

theorem deletes_on_empty (c : Ctx) (evs : List XEvent) :
    ∀ s : State, s.len = 0 → s.running = true → (∀ ev ∈ evs, isDeleteKey ev) → evs ≠ [] →
      readpwLoop c s evs = some (recolor c s) := by
  induction evs with
  | nil => intro s _ _ _ h; exact absurd rfl h
  | cons ev evs ih =>
    intro s h0 hr hk _
    rw [readpwLoop_cons c hr (handleEvent_delete_empty c (hk ev (by simp)) h0)]
    cases evs with
    | nil => rfl
    | cons e es =>
      rw [ih (recolor c s) (by rw [(recolor_fields c s).2.1, h0])
        (by rw [recolor_running, hr]) (fun x hx => hk x (by simp [hx])) (by simp), recolor_idem]

theorem shown_handleEvent (c : Ctx) {s t : State} {ev : XEvent}
    (h : handleEvent c s ev = some t) (hs : Shown c s) (ht : t.running = true) :
    Shown c t := by
  unfold handleEvent at h
  split at h
  · unfold keypress at h
    split at h
    · simp only [Option.some.injEq] at h; subst h; exact hs
    · simp only [Option.map_eq_some'] at h
      obtain ⟨u, _, rfl⟩ := h
      rw [recolor_running] at ht
      left
      rw [recolor_oldc c ht, (recolor_fields c u).2.1, (recolor_fields c u).2.2.2.1]
  · split at h <;>
    · simp only [Option.some.injEq] at h; subst h; exact hs

theorem shown_readpwLoop (c : Ctx) (evs : List XEvent) :
    ∀ s t : State, readpwLoop c s evs = some t → Shown c s → t.running = true → Shown c t := by
  induction evs with
  | nil =>
    intro s t h hs _
    simp only [readpwLoop, Option.some.injEq] at h
    subst h; exact hs
  | cons ev evs ih =>
    intro s t h hs ht
    cases hr : s.running with
    | false =>
      rw [readpwLoop_stopped c hr] at h
      simp only [Option.some.injEq] at h
      subst h; exact hs
    | true =>
      cases hev : handleEvent c s ev with
      | none => simp [readpwLoop, hr, hev] at h
      | some u =>
        rw [readpwLoop_cons c hr hev] at h
        cases hur : u.running with
        | false =>
          rw [readpwLoop_stopped c hur] at h
          simp only [Option.some.injEq] at h
          subst h; rw [hur] at ht; simp at ht
        | true => exact ih u t h (shown_handleEvent c hev hs hur) ht

theorem shown_init (c : Ctx) (garbage : List Nat) : Shown c (initState garbage) := by
  cases hf : c.failonclear with
  | false => left; simp [initState, color, hf, INIT]
  | true => right; exact ⟨hf, rfl⟩


/-! ## Lemmas on the retry loop of lockscreen -/

theorem grab2_ptgrab (X : XServer) (g : Grabs) :
    (grabKeyboard X (grabPointer X g)).ptgrab = (iterOf X g false).pt.getD g.ptgrab := by
  unfold grabKeyboard grabPointer iterOf
  by_cases h1 : g.ptgrab = GrabSuccess <;> by_cases h2 : g.kbgrab = GrabSuccess <;>
    simp [h1, h2]

theorem grab2_kbgrab (X : XServer) (g : Grabs) :
    (grabKeyboard X (grabPointer X g)).kbgrab = (iterOf X g false).kb.getD g.kbgrab := by
  unfold grabKeyboard grabPointer iterOf
  by_cases h1 : g.ptgrab = GrabSuccess <;> by_cases h2 : g.kbgrab = GrabSuccess <;>
    simp [h1, h2]

theorem iterOf_pt (X : XServer) (g : Grabs) (b : Bool) :
    (iterOf X g b).pt = (iterOf X g false).pt := rfl

theorem iterOf_kb (X : XServer) (g : Grabs) (b : Bool) :
    (iterOf X g b).kb = (iterOf X g false).kb := rfl

theorem iterOf_pt_isSome (X : XServer) (g : Grabs) (b : Bool) :
    (iterOf X g b).pt.isSome = true ↔ g.ptgrab ≠ GrabSuccess := by
  unfold iterOf
  by_cases h1 : g.ptgrab = GrabSuccess <;> simp [h1]

theorem iterOf_kb_isSome (X : XServer) (g : Grabs) (b : Bool) :
    (iterOf X g b).kb.isSome = true ↔ g.kbgrab ≠ GrabSuccess := by
  unfold iterOf
  by_cases h1 : g.kbgrab = GrabSuccess <;> simp [h1]

/-- The three ways one iteration can end: `return lock`, `break`, or `usleep` and go on. -/
theorem grabLoop_succ_cases (X : XServer) (n : Nat) (g : Grabs) :
    ((grabKeyboard X (grabPointer X g)).ptgrab = GrabSuccess ∧
      (grabKeyboard X (grabPointer X g)).kbgrab = GrabSuccess ∧
      grabLoop X (n + 1) g =
        { locked := true, ptgrab := (grabKeyboard X (grabPointer X g)).ptgrab,
          kbgrab := (grabKeyboard X (grabPointer X g)).kbgrab,
          iters := [iterOf X g false] }) ∨
    (¬ ((grabKeyboard X (grabPointer X g)).ptgrab = GrabSuccess ∧
        (grabKeyboard X (grabPointer X g)).kbgrab = GrabSuccess) ∧
      (((grabKeyboard X (grabPointer X g)).ptgrab ≠ AlreadyGrabbed ∧
        (grabKeyboard X (grabPointer X g)).ptgrab ≠ GrabSuccess) ∨
       ((grabKeyboard X (grabPointer X g)).kbgrab ≠ AlreadyGrabbed ∧
        (grabKeyboard X (grabPointer X g)).kbgrab ≠ GrabSuccess)) ∧
      grabLoop X (n + 1) g =
        { locked := false, ptgrab := (grabKeyboard X (grabPointer X g)).ptgrab,
          kbgrab := (grabKeyboard X (grabPointer X g)).kbgrab,
          iters := [iterOf X g false] }) ∨
    (¬ ((grabKeyboard X (grabPointer X g)).ptgrab = GrabSuccess ∧
        (grabKeyboard X (grabPointer X g)).kbgrab = GrabSuccess) ∧
      ¬ (((grabKeyboard X (grabPointer X g)).ptgrab ≠ AlreadyGrabbed ∧
        (grabKeyboard X (grabPointer X g)).ptgrab ≠ GrabSuccess) ∨
       ((grabKeyboard X (grabPointer X g)).kbgrab ≠ AlreadyGrabbed ∧
        (grabKeyboard X (grabPointer X g)).kbgrab ≠ GrabSuccess)) ∧
      grabLoop X (n + 1) g =
        { grabLoop X n (grabKeyboard X (grabPointer X g)) with
          iters := iterOf X g true :: (grabLoop X n (grabKeyboard X (grabPointer X g))).iters }) := by
  by_cases h1 : (grabKeyboard X (grabPointer X g)).ptgrab = GrabSuccess ∧
      (grabKeyboard X (grabPointer X g)).kbgrab = GrabSuccess
  · left
    exact ⟨h1.1, h1.2, by rw [grabLoop]; simp only [h1, and_self, if_true]⟩
  · by_cases h2 : (((grabKeyboard X (grabPointer X g)).ptgrab ≠ AlreadyGrabbed ∧
        (grabKeyboard X (grabPointer X g)).ptgrab ≠ GrabSuccess) ∨
       ((grabKeyboard X (grabPointer X g)).kbgrab ≠ AlreadyGrabbed ∧
        (grabKeyboard X (grabPointer X g)).kbgrab ≠ GrabSuccess))
    · right; left
      exact ⟨h1, h2, by rw [grabLoop]; simp only [h1, h2, if_true, if_false]⟩
    · right; right
      exact ⟨h1, h2, by rw [grabLoop]; simp only [h1, h2, if_false]⟩

theorem lastPt_cons (it : Iter) (its : List Iter) (d : Int) :
    (lastPt (it :: its)).getD d = (lastPt its).getD (it.pt.getD d) := by
  simp only [lastPt]
  cases lastPt its <;> simp

theorem lastKb_cons (it : Iter) (its : List Iter) (d : Int) :
    (lastKb (it :: its)).getD d = (lastKb its).getD (it.kb.getD d) := by
  simp only [lastKb]
  cases lastKb its <;> simp

/-- The final `ptgrab` and `kbgrab` are the most recent replies (or the starting values). -/
theorem grabLoop_final (X : XServer) (n : Nat) :
    ∀ g : Grabs, (lastPt (grabLoop X n g).iters).getD g.ptgrab = (grabLoop X n g).ptgrab ∧
      (lastKb (grabLoop X n g).iters).getD g.kbgrab = (grabLoop X n g).kbgrab := by
  induction n with
  | zero => intro g; simp [grabLoop, lastPt, lastKb]
  | succ n ih =>
    intro g
    rcases grabLoop_succ_cases X n g with ⟨_, _, h⟩ | ⟨_, _, h⟩ | ⟨_, _, h⟩
    · rw [h]; simp only [lastPt_cons, lastKb_cons, lastPt, lastKb, Option.getD_none]
      exact ⟨(grab2_ptgrab X g).symm, (grab2_kbgrab X g).symm⟩
    · rw [h]; simp only [lastPt_cons, lastKb_cons, lastPt, lastKb, Option.getD_none]
      exact ⟨(grab2_ptgrab X g).symm, (grab2_kbgrab X g).symm⟩
    · rw [h]; simp only [lastPt_cons, lastKb_cons, iterOf_pt, iterOf_kb]
      rw [← grab2_ptgrab, ← grab2_kbgrab]
      exact ih _

theorem grabLoop_locked (X : XServer) (n : Nat) :
    ∀ g : Grabs, (grabLoop X n g).locked = true →
      (grabLoop X n g).ptgrab = GrabSuccess ∧ (grabLoop X n g).kbgrab = GrabSuccess := by
  induction n with
  | zero => intro g h; simp [grabLoop] at h
  | succ n ih =>
    intro g
    rcases grabLoop_succ_cases X n g with ⟨h1, h2, h⟩ | ⟨_, _, h⟩ | ⟨_, _, h⟩
    · rw [h]; intro _; exact ⟨h1, h2⟩
    · rw [h]; intro hl; simp at hl
    · rw [h]; exact ih _

theorem grabLoop_counts (X : XServer) (n : Nat) :
    ∀ g : Grabs, (grabLoop X n g).iters.length ≤ n := by
  induction n with
  | zero => intro g; simp [grabLoop]
  | succ n ih =>
    intro g
    rcases grabLoop_succ_cases X n g with ⟨_, _, h⟩ | ⟨_, _, h⟩ | ⟨_, _, h⟩
    · rw [h]; simp
    · rw [h]; simp
    · rw [h]; simp only [List.length_cons]; have := ih (grabKeyboard X (grabPointer X g)); omega

theorem filter_length_le_six {its : List Iter} (h : its.length ≤ 6) (p : Iter → Bool) :
    (its.filter p).length ≤ 6 :=
  Nat.le_trans (List.length_filter_le p its) h

/-- Once the pointer is grabbed no iteration calls `XGrabPointer`. -/
theorem grabLoop_pt_done (X : XServer) (n : Nat) :
    ∀ g : Grabs, g.ptgrab = GrabSuccess → ∀ it ∈ (grabLoop X n g).iters, it.pt = none := by
  induction n with
  | zero => intro g _ it h; simp [grabLoop] at h
  | succ n ih =>
    intro g hg
    have h0 : ∀ b, (iterOf X g b).pt = none := by intro b; simp [iterOf, hg]
    have hg2 : (grabKeyboard X (grabPointer X g)).ptgrab = GrabSuccess := by
      rw [grab2_ptgrab, h0]; exact hg
    rcases grabLoop_succ_cases X n g with ⟨_, _, h⟩ | ⟨_, _, h⟩ | ⟨_, _, h⟩
    · rw [h]; intro it hit; simp only [List.mem_singleton] at hit; rw [hit]; exact h0 _
    · rw [h]; intro it hit; simp only [List.mem_singleton] at hit; rw [hit]; exact h0 _
    · rw [h]; intro it hit
      simp only [List.mem_cons] at hit
      rcases hit with hit | hit
      · rw [hit]; exact h0 _
      · exact ih _ hg2 it hit

/-- Once the keyboard is grabbed no iteration calls `XGrabKeyboard`. -/
theorem grabLoop_kb_done (X : XServer) (n : Nat) :
    ∀ g : Grabs, g.kbgrab = GrabSuccess → ∀ it ∈ (grabLoop X n g).iters, it.kb = none := by
  induction n with
  | zero => intro g _ it h; simp [grabLoop] at h
  | succ n ih =>
    intro g hg
    have h0 : ∀ b, (iterOf X g b).kb = none := by intro b; simp [iterOf, hg]
    have hg2 : (grabKeyboard X (grabPointer X g)).kbgrab = GrabSuccess := by
      rw [grab2_kbgrab, h0]; exact hg
    rcases grabLoop_succ_cases X n g with ⟨_, _, h⟩ | ⟨_, _, h⟩ | ⟨_, _, h⟩
    · rw [h]; intro it hit; simp only [List.mem_singleton] at hit; rw [hit]; exact h0 _
    · rw [h]; intro it hit; simp only [List.mem_singleton] at hit; rw [hit]; exact h0 _
    · rw [h]; intro it hit
      simp only [List.mem_cons] at hit
      rcases hit with hit | hit
      · rw [hit]; exact h0 _
      · exact ih _ hg2 it hit


theorem grabLoop_head (X : XServer) (n : Nat) (g : Grabs) (it : Iter)
    (h : (grabLoop X n g).iters.head? = some it) :
    (it.pt.isSome = true ↔ g.ptgrab ≠ GrabSuccess) ∧
    (it.kb.isSome = true ↔ g.kbgrab ≠ GrabSuccess) := by
  cases n with
  | zero => simp [grabLoop] at h
  | succ n =>
    rcases grabLoop_succ_cases X n g with ⟨_, _, e⟩ | ⟨_, _, e⟩ | ⟨_, _, e⟩ <;>
    · rw [e] at h
      simp only [List.head?_cons, Option.some.injEq] at h
      subst h
      exact ⟨iterOf_pt_isSome X g _, iterOf_kb_isSome X g _⟩

/-- A resource that has returned `GrabSuccess` is not attempted in any later iteration. -/
theorem grabLoop_pairwise (X : XServer) (n : Nat) :
    ∀ g : Grabs,
      (grabLoop X n g).iters.Pairwise (fun a b => a.pt = some GrabSuccess → b.pt = none) ∧
      (grabLoop X n g).iters.Pairwise (fun a b => a.kb = some GrabSuccess → b.kb = none) := by
  induction n with
  | zero => intro g; simp [grabLoop]
  | succ n ih =>
    intro g
    rcases grabLoop_succ_cases X n g with ⟨_, _, h⟩ | ⟨_, _, h⟩ | ⟨_, _, h⟩
    · rw [h]; simp
    · rw [h]; simp
    · rw [h]
      simp only [List.pairwise_cons]
      refine ⟨⟨?_, (ih _).1⟩, ⟨?_, (ih _).2⟩⟩
      · intro b hb hpt
        refine grabLoop_pt_done X n _ ?_ b hb
        rw [grab2_ptgrab, ← iterOf_pt X g true, hpt]; rfl
      · intro b hb hkb
        refine grabLoop_kb_done X n _ ?_ b hb
        rw [grab2_kbgrab, ← iterOf_kb X g true, hkb]; rfl

/-- A resource that returned `AlreadyGrabbed` is attempted in the next iteration. -/
theorem grabLoop_chain (X : XServer) (n : Nat) :
    ∀ g : Grabs,
      (grabLoop X n g).iters.Chain'
        (fun a b => a.pt = some AlreadyGrabbed → b.pt.isSome = true) ∧
      (grabLoop X n g).iters.Chain'
        (fun a b => a.kb = some AlreadyGrabbed → b.kb.isSome = true) := by
  induction n with
  | zero => intro g; simp [grabLoop]
  | succ n ih =>
    intro g
    rcases grabLoop_succ_cases X n g with ⟨_, _, h⟩ | ⟨_, _, h⟩ | ⟨_, _, h⟩
    · rw [h]; simp
    · rw [h]; simp
    · rw [h]
      simp only [List.chain'_cons']
      refine ⟨⟨?_, (ih _).1⟩, ⟨?_, (ih _).2⟩⟩
      · intro b hb hpt
        rw [(grabLoop_head X n _ b hb).1, grab2_ptgrab, ← iterOf_pt X g true, hpt]
        simp [AlreadyGrabbed, GrabSuccess]
      · intro b hb hkb
        rw [(grabLoop_head X n _ b hb).2, grab2_kbgrab, ← iterOf_kb X g true, hkb]
        simp [AlreadyGrabbed, GrabSuccess]

theorem iterOf_hard (X : XServer) (g : Grabs) (b : Bool) (h : (iterOf X g b).hard) :
    ((grabKeyboard X (grabPointer X g)).ptgrab ≠ AlreadyGrabbed ∧
      (grabKeyboard X (grabPointer X g)).ptgrab ≠ GrabSuccess) ∨
    ((grabKeyboard X (grabPointer X g)).kbgrab ≠ AlreadyGrabbed ∧
      (grabKeyboard X (grabPointer X g)).kbgrab ≠ GrabSuccess) := by
  rcases h with ⟨r, hr, h0, h1⟩ | ⟨r, hr, h0, h1⟩
  · left
    rw [grab2_ptgrab, ← iterOf_pt X g b, hr]
    exact ⟨h1, h0⟩
  · right
    rw [grab2_kbgrab, ← iterOf_kb X g b, hr]
    exact ⟨h1, h0⟩

theorem hard_of_break (X : XServer) (g : Grabs) (b : Bool)
    (h : ((grabKeyboard X (grabPointer X g)).ptgrab ≠ AlreadyGrabbed ∧
      (grabKeyboard X (grabPointer X g)).ptgrab ≠ GrabSuccess) ∨
    ((grabKeyboard X (grabPointer X g)).kbgrab ≠ AlreadyGrabbed ∧
      (grabKeyboard X (grabPointer X g)).kbgrab ≠ GrabSuccess)) : (iterOf X g b).hard := by
  rcases h with ⟨h1, h0⟩ | ⟨h1, h0⟩
  · left
    rw [grab2_ptgrab] at h0 h1
    cases hp : (iterOf X g false).pt with
    | none =>
      rw [hp] at h0
      have : g.ptgrab = GrabSuccess := by
        by_contra hne
        have := (iterOf_pt_isSome X g false).2 hne
        rw [hp] at this; simp at this
      exact absurd this h0
    | some r =>
      rw [hp] at h0 h1
      exact ⟨r, by rw [iterOf_pt, hp], h0, h1⟩
  · right
    rw [grab2_kbgrab] at h0 h1
    cases hp : (iterOf X g false).kb with
    | none =>
      rw [hp] at h0
      have : g.kbgrab = GrabSuccess := by
        by_contra hne
        have := (iterOf_kb_isSome X g false).2 hne
        rw [hp] at this; simp at this
      exact absurd this h0
    | some r =>
      rw [hp] at h0 h1
      exact ⟨r, by rw [iterOf_kb, hp], h0, h1⟩

/-- An iteration with a reply other than `GrabSuccess` and `AlreadyGrabbed` is the last. -/
theorem grabLoop_hard_last (X : XServer) (n : Nat) :
    ∀ (g : Grabs) (pre : List Iter) (it : Iter) (post : List Iter),
      (grabLoop X n g).iters = pre ++ it :: post → it.hard → post = [] := by
  induction n with
  | zero => intro g pre it post h; simp [grabLoop] at h
  | succ n ih =>
    intro g pre it post
    have single : ∀ x : Iter, [x] = pre ++ it :: post → post = [] := by
      intro x hx
      cases pre with
      | nil => simp only [List.nil_append, List.cons.injEq] at hx; exact hx.2.symm
      | cons p ps => simp at hx
    rcases grabLoop_succ_cases X n g with ⟨_, _, h⟩ | ⟨_, _, h⟩ | ⟨_, hnb, h⟩
    · rw [h]; intro e _; exact single _ e
    · rw [h]; intro e _; exact single _ e
    · rw [h]; intro e hh
      cases pre with
      | nil =>
        simp only [List.nil_append, List.cons.injEq] at e
        rw [← e.1] at hh
        exact absurd (iterOf_hard X g true hh) hnb
      | cons p ps =>
        simp only [List.cons_append, List.cons.injEq] at e
        exact ih _ ps it post e.2 hh

theorem getLast?_cons_cons (a b : Iter) (l : List Iter) :
    (a :: b :: l).getLast? = (b :: l).getLast? := by
  simp [List.getLast?_cons_cons]

/-- When the loop does not return a lock, its last iteration got a hard failure or the six
iterations are used up with a grab still missing. -/
theorem grabLoop_not_locked (X : XServer) (n : Nat) :
    ∀ g : Grabs, ¬ (g.ptgrab = GrabSuccess ∧ g.kbgrab = GrabSuccess) →
      (grabLoop X n g).locked = false →
      (∃ it, (grabLoop X n g).iters.getLast? = some it ∧ it.hard) ∨
      ((grabLoop X n g).iters.length = n ∧
        ¬ ((grabLoop X n g).ptgrab = GrabSuccess ∧ (grabLoop X n g).kbgrab = GrabSuccess)) := by
  induction n with
  | zero => intro g hg _; right; exact ⟨by simp [grabLoop], by simpa [grabLoop] using hg⟩
  | succ n ih =>
    intro g hg
    rcases grabLoop_succ_cases X n g with ⟨_, _, h⟩ | ⟨_, hb, h⟩ | ⟨hnb, _, h⟩
    · rw [h]; intro hl; simp at hl
    · rw [h]; intro _; left
      exact ⟨_, rfl, hard_of_break X g false hb⟩
    · rw [h]; intro hl
      rcases ih _ hnb hl with ⟨it, hit, hh⟩ | ⟨hlen, hnot⟩
      · left
        refine ⟨it, ?_, hh⟩
        simp only
        cases hi : (grabLoop X n (grabKeyboard X (grabPointer X g))).iters with
        | nil => rw [hi] at hit; simp at hit
        | cons b l => rw [hi] at hit; rw [getLast?_cons_cons]; exact hit
      · right
        exact ⟨by simp only [List.length_cons]; omega, hnot⟩

theorem lastPt_of_getLast? (its : List Iter) :
    ∀ (it : Iter) (r : Int), its.getLast? = some it → it.pt = some r → lastPt its = some r := by
  induction its with
  | nil => intro it r h; simp at h
  | cons a l ih =>
    intro it r h hr
    cases l with
    | nil =>
      simp only [List.getLast?_singleton, Option.some.injEq] at h
      subst h; simp [lastPt, hr]
    | cons b l =>
      rw [getLast?_cons_cons] at h
      simp only [lastPt] at ih ⊢
      rw [ih it r h hr]

theorem lastKb_of_getLast? (its : List Iter) :
    ∀ (it : Iter) (r : Int), its.getLast? = some it → it.kb = some r → lastKb its = some r := by
  induction its with
  | nil => intro it r h; simp at h
  | cons a l ih =>
    intro it r h hr
    cases l with
    | nil =>
      simp only [List.getLast?_singleton, Option.some.injEq] at h
      subst h; simp [lastKb, hr]
    | cons b l =>
      rw [getLast?_cons_cons] at h
      simp only [lastKb] at ih ⊢
      rw [ih it r h hr]


/-! ## Lemmas on the locking loop of main -/

theorem lastPt_eq_success_iff {its : List Iter} {v : Int}
    (h : (lastPt its).getD (-1) = v) : lastPt its = some GrabSuccess ↔ v = GrabSuccess := by
  cases hl : lastPt its with
  | none => rw [hl] at h; simp only [Option.getD_none] at h; subst h; simp [GrabSuccess]
  | some r => rw [hl] at h; simp only [Option.getD_some] at h; subst h; simp

theorem lastKb_eq_success_iff {its : List Iter} {v : Int}
    (h : (lastKb its).getD (-1) = v) : lastKb its = some GrabSuccess ↔ v = GrabSuccess := by
  cases hl : lastKb its with
  | none => rw [hl] at h; simp only [Option.getD_none] at h; subst h; simp [GrabSuccess]
  | some r => rw [hl] at h; simp only [Option.getD_some] at h; subst h; simp

/-- The value `lockscreen` returns once its entry check has passed, in terms of the retry
loop started with `ptgrab = kbgrab = -1`. -/
theorem lockscreen_eq (screen : Int) (X : XServer) (hs : 0 ≤ screen) :
    (lockscreen false screen true X).iters = (grabLoop X 6 ⟨-1, -1, 0, 0⟩).iters ∧
    ((lockscreen false screen true X).lock = none ↔
      (grabLoop X 6 ⟨-1, -1, 0, 0⟩).locked = false) ∧
    ((lockscreen false screen true X).lock = none →
      (lockscreen false screen true X).stderr =
        (if (grabLoop X 6 ⟨-1, -1, 0, 0⟩).ptgrab ≠ GrabSuccess then [Diag.pointer screen]
          else []) ++
        (if (grabLoop X 6 ⟨-1, -1, 0, 0⟩).kbgrab ≠ GrabSuccess then [Diag.keyboard screen]
          else [])) ∧
    ((lockscreen false screen true X).lock ≠ none →
      (lockscreen false screen true X).stderr = []) := by
  have hn : ¬ screen < 0 := by omega
  unfold lockscreen
  simp only [Bool.false_eq_true, hn, or_self, if_false]
  cases hl : (grabLoop X 6 ⟨-1, -1, 0, 0⟩).locked <;> simp

theorem lockscreen_iters_le (dpyNull : Bool) (screen : Int) (mallocOk : Bool) (X : XServer) :
    (lockscreen dpyNull screen mallocOk X).iters.length ≤ 6 := by
  unfold lockscreen
  split
  · simp
  · have := grabLoop_counts X 6 ⟨-1, -1, 0, 0⟩
    simp only
    split <;> exact this

theorem lockscreen_some (dpyNull : Bool) (screen : Int) (mallocOk : Bool) (X : XServer)
    (h : (lockscreen dpyNull screen mallocOk X).lock.isSome = true) :
    lastPt (lockscreen dpyNull screen mallocOk X).iters = some GrabSuccess ∧
    lastKb (lockscreen dpyNull screen mallocOk X).iters = some GrabSuccess := by
  unfold lockscreen at h ⊢
  split at h
  · simp at h
  · next hg =>
    rw [if_neg hg]
    simp only at h ⊢
    cases hl : (grabLoop X 6 ⟨-1, -1, 0, 0⟩).locked with
    | false => rw [hl] at h; simp at h
    | true =>
      simp only [if_true]
      have hf := grabLoop_final X 6 ⟨-1, -1, 0, 0⟩
      have hk := grabLoop_locked X 6 ⟨-1, -1, 0, 0⟩ hl
      exact ⟨(lastPt_eq_success_iff hf.1).2 hk.1, (lastKb_eq_success_iff hf.2).2 hk.2⟩

/-! ## The claims -/

/-- C3. `lockscreen` returns a lock only if, when its last iteration ends, the most recent
reply to `XGrabPointer` and the most recent reply to `XGrabKeyboard` are both `GrabSuccess`;
and every run makes at most 6 pointer-grab calls and at most 6 keyboard-grab calls and
sleeps at most 600 ms in all. -/
theorem C3_lock_only_with_both_grabs (dpyNull : Bool) (screen : Int) (mallocOk : Bool)
    (X : XServer) :
    ((lockscreen dpyNull screen mallocOk X).lock.isSome = true →
      lastPt (lockscreen dpyNull screen mallocOk X).iters = some GrabSuccess ∧
      lastKb (lockscreen dpyNull screen mallocOk X).iters = some GrabSuccess) ∧
    ptCallCount (lockscreen dpyNull screen mallocOk X).iters ≤ 6 ∧
    kbCallCount (lockscreen dpyNull screen mallocOk X).iters ≤ 6 ∧
    sleptMs (lockscreen dpyNull screen mallocOk X).iters ≤ 600 := by
  have hle := lockscreen_iters_le dpyNull screen mallocOk X
  refine ⟨lockscreen_some dpyNull screen mallocOk X, filter_length_le_six hle _,
    filter_length_le_six hle _, ?_⟩
  have := filter_length_le_six hle (fun it => it.slept)
  unfold sleptMs
  omega

/-- C3, on a server that refuses the pointer twice and the keyboard once before granting
both: the lock is returned after three iterations and 200 ms of sleep. -/
theorem C3_lock_only_with_both_grabs_witness :
    (lockscreen false 0 true
        { serverOk with pointer := fun k => if k < 2 then 1 else 0,
                        keyboard := fun k => if k < 1 then 1 else 0 }).lock.isSome = true ∧
    lastPt (lockscreen false 0 true
        { serverOk with pointer := fun k => if k < 2 then 1 else 0,
                        keyboard := fun k => if k < 1 then 1 else 0 }).iters
      = some GrabSuccess ∧
    sleptMs (lockscreen false 0 true
        { serverOk with pointer := fun k => if k < 2 then 1 else 0,
                        keyboard := fun k => if k < 1 then 1 else 0 }).iters = 200 :=
  ⟨by decide,
   ((C3_lock_only_with_both_grabs false 0 true
        { serverOk with pointer := fun k => if k < 2 then 1 else 0,
                        keyboard := fun k => if k < 1 then 1 else 0 }).1 (by decide)).1,
   by decide⟩

/-- The retry policy for a call of `lockscreen` whose entry check has passed. -/
theorem retry_policy_of_entry (screen : Int) (X : XServer) (hs : 0 ≤ screen) :
    (lockscreen false screen true X).iters.Pairwise
      (fun a b => a.pt = some GrabSuccess → b.pt = none) ∧
    (lockscreen false screen true X).iters.Pairwise
      (fun a b => a.kb = some GrabSuccess → b.kb = none) ∧
    (lockscreen false screen true X).iters.Chain'
      (fun a b => a.pt = some AlreadyGrabbed → b.pt.isSome = true) ∧
    (lockscreen false screen true X).iters.Chain'
      (fun a b => a.kb = some AlreadyGrabbed → b.kb.isSome = true) ∧
    (∀ pre it post, (lockscreen false screen true X).iters = pre ++ it :: post →
      it.hard → post = []) ∧
    ((lockscreen false screen true X).lock = none ↔
      (∃ it, (lockscreen false screen true X).iters.getLast? = some it ∧ it.hard) ∨
      ((lockscreen false screen true X).iters.length = 6 ∧
        ¬ (lastPt (lockscreen false screen true X).iters = some GrabSuccess ∧
           lastKb (lockscreen false screen true X).iters = some GrabSuccess))) ∧
    ((lockscreen false screen true X).lock = none →
      (lockscreen false screen true X).stderr =
        (if lastPt (lockscreen false screen true X).iters ≠ some GrabSuccess
          then [Diag.pointer screen] else []) ++
        (if lastKb (lockscreen false screen true X).iters ≠ some GrabSuccess
          then [Diag.keyboard screen] else [])) ∧
    ((lockscreen false screen true X).lock ≠ none →
      (lockscreen false screen true X).stderr = []) := by
  obtain ⟨hi, hlock, herr, hok⟩ := lockscreen_eq screen X hs
  have hf := grabLoop_final X 6 ⟨-1, -1, 0, 0⟩
  have hpt := lastPt_eq_success_iff hf.1
  have hkb := lastKb_eq_success_iff hf.2
  have h0 : ¬ ((⟨-1, -1, 0, 0⟩ : Grabs).ptgrab = GrabSuccess ∧
      (⟨-1, -1, 0, 0⟩ : Grabs).kbgrab = GrabSuccess) := by decide
  rw [hi]
  refine ⟨(grabLoop_pairwise X 6 _).1, (grabLoop_pairwise X 6 _).2, (grabLoop_chain X 6 _).1,
    (grabLoop_chain X 6 _).2, grabLoop_hard_last X 6 _, ?_, ?_, hok⟩
  · rw [hlock, hpt, hkb]
    constructor
    · exact grabLoop_not_locked X 6 _ h0
    · intro h
      cases hl : (grabLoop X 6 ⟨-1, -1, 0, 0⟩).locked with
      | false => rfl
      | true =>
        exfalso
        have hk := grabLoop_locked X 6 _ hl
        rcases h with ⟨it, hit, hh⟩ | ⟨_, hnot⟩
        · rcases hh with ⟨r, hr, hr0, _⟩ | ⟨r, hr, hr0, _⟩
          · have := lastPt_of_getLast? _ it r hit hr
            rw [this] at hpt
            exact hr0 ((Option.some.inj (hpt.2 hk.1)))
          · have := lastKb_of_getLast? _ it r hit hr
            rw [this] at hkb
            exact hr0 ((Option.some.inj (hkb.2 hk.2)))
        · exact hnot hk
  · intro hn
    rw [herr hn]
    simp only [ne_eq, hpt, hkb]

theorem lockscreen_entry_fails (dpyNull : Bool) (screen : Int) (mallocOk : Bool) (X : XServer)
    (h : entryFails dpyNull screen mallocOk) :
    lockscreen dpyNull screen mallocOk X = { lock := none, iters := [], stderr := [] } := by
  unfold lockscreen
  rw [if_pos h]

/-- C4, as the code has it.  For every call of `lockscreen` and every sequence of grab replies:
a resource that has returned `GrabSuccess` is not attempted in any later iteration; a resource
that returned `AlreadyGrabbed` is attempted in the next iteration whenever there is one; an
iteration with a reply other than `GrabSuccess` and `AlreadyGrabbed` is the last one;
`lockscreen` returns `NULL` exactly when its entry check fails (`dpy` is `NULL`, `screen` is
negative or the lock was not allocated), or the last iteration got such a reply, or six
iterations have run without both grabs held.  When the entry check fails no grab is
attempted and nothing is printed; when it passes and `NULL` is returned, the pointer message
is printed exactly when the pointer is not grabbed and the keyboard message exactly when the
keyboard is not grabbed; nothing is printed when a lock is returned.  Scenario B: with the
pointer always `AlreadyGrabbed` and the keyboard granted at once, `lockscreen` returns `NULL`,
names only the pointer, and has called `XGrabPointer` 6 times and `XGrabKeyboard` once. -/
theorem C4_two_resource_retry_policy (dpyNull : Bool) (screen : Int) (mallocOk : Bool)
    (X : XServer) :
    (lockscreen dpyNull screen mallocOk X).iters.Pairwise
      (fun a b => a.pt = some GrabSuccess → b.pt = none) ∧
    (lockscreen dpyNull screen mallocOk X).iters.Pairwise
      (fun a b => a.kb = some GrabSuccess → b.kb = none) ∧
    (lockscreen dpyNull screen mallocOk X).iters.Chain'
      (fun a b => a.pt = some AlreadyGrabbed → b.pt.isSome = true) ∧
    (lockscreen dpyNull screen mallocOk X).iters.Chain'
      (fun a b => a.kb = some AlreadyGrabbed → b.kb.isSome = true) ∧
    (∀ pre it post, (lockscreen dpyNull screen mallocOk X).iters = pre ++ it :: post →
      it.hard → post = []) ∧
    ((lockscreen dpyNull screen mallocOk X).lock = none ↔
      entryFails dpyNull screen mallocOk ∨
      (∃ it, (lockscreen dpyNull screen mallocOk X).iters.getLast? = some it ∧ it.hard) ∨
      ((lockscreen dpyNull screen mallocOk X).iters.length = 6 ∧
        ¬ (lastPt (lockscreen dpyNull screen mallocOk X).iters = some GrabSuccess ∧
           lastKb (lockscreen dpyNull screen mallocOk X).iters = some GrabSuccess))) ∧
    (entryFails dpyNull screen mallocOk →
      (lockscreen dpyNull screen mallocOk X).iters = [] ∧
      (lockscreen dpyNull screen mallocOk X).stderr = []) ∧
    (¬ entryFails dpyNull screen mallocOk →
      (lockscreen dpyNull screen mallocOk X).lock = none →
      (lockscreen dpyNull screen mallocOk X).stderr =
        (if lastPt (lockscreen dpyNull screen mallocOk X).iters ≠ some GrabSuccess
          then [Diag.pointer screen] else []) ++
        (if lastKb (lockscreen dpyNull screen mallocOk X).iters ≠ some GrabSuccess
          then [Diag.keyboard screen] else [])) ∧
    ((lockscreen dpyNull screen mallocOk X).lock ≠ none →
      (lockscreen dpyNull screen mallocOk X).stderr = []) ∧
    ((lockscreen false 0 true serverB).lock = none ∧
      (lockscreen false 0 true serverB).stderr = [Diag.pointer 0] ∧
      ptCallCount (lockscreen false 0 true serverB).iters = 6 ∧
      kbCallCount (lockscreen false 0 true serverB).iters = 1) := by
  by_cases hg : entryFails dpyNull screen mallocOk
  · rw [lockscreen_entry_fails dpyNull screen mallocOk X hg]
    refine ⟨by simp, by simp, by simp, by simp, ?_, ?_, fun _ => ⟨rfl, rfl⟩, ?_, by simp,
      by decide⟩
    · intro pre it post h; simp at h
    · exact ⟨fun _ => Or.inl hg, fun _ => rfl⟩
    · intro h; exact absurd hg h
  · have hd : dpyNull = false := by
      cases dpyNull with
      | false => rfl
      | true => exact absurd (Or.inl rfl) hg
    have hm : mallocOk = true := by
      cases mallocOk with
      | true => rfl
      | false => exact absurd (Or.inr (Or.inr rfl)) hg
    have hs : 0 ≤ screen := by
      by_contra hneg
      exact hg (Or.inr (Or.inl (by omega)))
    subst hd hm
    obtain ⟨h1, h2, h3, h4, h5, h6, h7, h8⟩ := retry_policy_of_entry screen X hs
    refine ⟨h1, h2, h3, h4, h5, ?_, fun h => absurd h hg, fun _ => h7, h8, by decide⟩
    rw [h6]
    constructor
    · intro h; exact Or.inr h
    · intro h
      rcases h with h | h
      · exact absurd h hg
      · exact h

/-- C4 at screen 0 of a server that answers the first pointer request with `GrabFrozen`: the
entry check passes, the only iteration is a hard failure, and `NULL` is returned. -/
theorem C4_two_resource_retry_policy_witness :
    ¬ entryFails false 0 true ∧
    (lockscreen false 0 true { serverOk with pointer := fun _ => 4 }).stderr
      = [Diag.pointer 0] ∧
    ((lockscreen false 0 true { serverOk with pointer := fun _ => 4 }).lock = none ↔
      entryFails false 0 true ∨
      (∃ it, (lockscreen false 0 true { serverOk with pointer := fun _ => 4 }).iters.getLast?
          = some it ∧ it.hard) ∨
      ((lockscreen false 0 true { serverOk with pointer := fun _ => 4 }).iters.length = 6 ∧
        ¬ (lastPt (lockscreen false 0 true { serverOk with pointer := fun _ => 4 }).iters
              = some GrabSuccess ∧
           lastKb (lockscreen false 0 true { serverOk with pointer := fun _ => 4 }).iters
              = some GrabSuccess))) :=
  ⟨by decide, by decide,
   (C4_two_resource_retry_policy false 0 true
      { serverOk with pointer := fun _ => 4 }).2.2.2.2.2.1⟩

/-- C4 as stated fails: when `malloc` gives no lock, `lockscreen` returns `NULL` although the
loop made no iteration (so it ended neither by a hard failure nor after six iterations), and
it prints nothing although neither the pointer nor the keyboard is grabbed. -/
theorem C4_counterexample :
    (lockscreen false 0 false serverOk).lock = none ∧
    (lockscreen false 0 false serverOk).iters = [] ∧
    (lockscreen false 0 false serverOk).stderr = [] ∧
    ¬ ((∃ it, (lockscreen false 0 false serverOk).iters.getLast? = some it ∧ it.hard) ∨
       ((lockscreen false 0 false serverOk).iters.length = 6 ∧
         ¬ (lastPt (lockscreen false 0 false serverOk).iters = some GrabSuccess ∧
            lastKb (lockscreen false 0 false serverOk).iters = some GrabSuccess))) ∧
    lastPt (lockscreen false 0 false serverOk).iters ≠ some GrabSuccess ∧
    lastKb (lockscreen false 0 false serverOk).iters ≠ some GrabSuccess := by
  have e : lockscreen false 0 false serverOk = { lock := none, iters := [], stderr := [] } :=
    rfl
  rw [e]
  refine ⟨rfl, rfl, rfl, ?_, by simp [lastPt], by simp [lastKb]⟩
  rintro (⟨it, h, _⟩ | ⟨h, _⟩)
  · simp at h
  · simp at h

/-- C1. In every loop state (the loop is running and `len` is inside the array), handling a
press of Return or keypad Enter gives: if `crypt` of the buffer returns a string equal to
`hash`, `running` becomes 0 and the loop handles no further event; otherwise (a different
string, or `NULL`) the loop keeps running, `failure` is 1, `len` is 0, all 256 bytes of
`passwd` are zero and exactly one `XBell` has been issued for the key. -/
theorem C1_submit_key (c : Ctx) (s : State) (ev : XEvent)
    (hrun : s.running = true) (hlen : s.len < sizeofPasswd) (hkey : isSubmitKey ev) :
    (verifies c s → ∃ t, handleEvent c s ev = some t ∧ t.running = false ∧
        ∀ evs, readpwLoop c s (ev :: evs) = some t) ∧
    (¬ verifies c s → ∃ t, handleEvent c s ev = some t ∧ t.running = true ∧
        t.failure = true ∧ t.len = 0 ∧ t.passwd = List.replicate 256 0 ∧
        t.log.count Action.bell = s.log.count Action.bell + 1) := by
  obtain ⟨hty, hk⟩ := hkey
  have hrc := fun t => recolor_fields c t
  have hstep : ∀ t, handleEvent c s ev = some t → t.running = false →
      ∀ evs, readpwLoop c s (ev :: evs) = some t := by
    intro t ht hr evs
    rw [readpwLoop_cons c hrun ht, readpwLoop_stopped c hr]
  constructor
  · intro hv
    have : ∃ t, handleEvent c s ev = some t ∧ t.running = false := by
      simp only [handleEvent, hty, if_true, keypress_submit c s ev hk, submit, hlen]
      refine ⟨_, rfl, ?_⟩
      rw [(hrc _).2.2.1]
      have hv2 : c.crypt (cstr (s.passwd.set s.len 0)) c.hash = some c.hash := hv
      simp [hv2]
    obtain ⟨t, ht, hr⟩ := this
    exact ⟨t, ht, hr, hstep t ht hr⟩
  · intro hv
    simp only [handleEvent, hty, if_true, keypress_submit c s ev hk, submit, hlen]
    refine ⟨_, rfl, ?_⟩
    rw [(hrc _).2.2.1, (hrc _).2.2.2.1, (hrc _).2.1, (hrc _).1, (hrc _).2.2.2.2]
    cases hcr : c.crypt (cstr (s.passwd.set s.len 0)) c.hash with
    | none => simp [hrun, sizeofPasswd]
    | some h =>
      have hne : h ≠ c.hash := by
        intro e; apply hv; show c.crypt _ _ = _; rw [hcr, e]
      simp [hne, sizeofPasswd]

/-- C1 on Return pressed with an empty buffer while the reference is the hash of "abc":
one bell, the failure flag set, the buffer zeroed. -/
theorem C1_submit_key_witness :
    (initState garbage7).running = true ∧ (initState garbage7).len < sizeofPasswd ∧
    isSubmitKey (key XK_Return [13]) ∧ ¬ verifies (ctxAbc false) (initState garbage7) ∧
    ∃ t, handleEvent (ctxAbc false) (initState garbage7) (key XK_Return [13]) = some t ∧
      t.running = true ∧ t.failure = true ∧ t.len = 0 ∧ t.passwd = List.replicate 256 0 ∧
      t.log.count Action.bell = (initState garbage7).log.count Action.bell + 1 :=
  ⟨rfl, by decide, by decide, by decide,
   (C1_submit_key (ctxAbc false) (initState garbage7) (key XK_Return [13]) rfl (by decide)
      (by decide)).2 (by decide)⟩

/-- C2. If `readpw` has left its loop after the events `evs`, then some event of `evs` was a
press of Return or keypad Enter, handled while the loop was running, at which the buffer
typed so far verified against `hash`, and handling it gave the final state; and no event of
any other kind, in any state, takes `running` from 1 to 0. -/
theorem C2_loop_ends_only_on_verified_submit (c : Ctx) (garbage : List Nat)
    (evs : List XEvent) (t : State) (h : readpw c garbage evs = some t)
    (hstop : t.running = false) :
    (∃ pre ev post u, evs = pre ++ ev :: post ∧ readpw c garbage pre = some u ∧
      u.running = true ∧ handleEvent c u ev = some t ∧ isSubmitKey ev ∧ verifies c u) ∧
    (∀ (s s1 : State) (ev : XEvent), s.running = true → handleEvent c s ev = some s1 →
      s1.running = false → isSubmitKey ev ∧ verifies c s) :=
  ⟨readpwLoop_stop c evs (initState garbage) t h rfl hstop,
   fun _ _ _ hr hs h1 => handleEvent_stop c hs hr h1⟩

/-- C2 on the run that types "abc" and presses Return against the hash of "abc". -/
theorem C2_loop_ends_only_on_verified_submit_witness :
    readpw (ctxAbc false) garbage7 typeAbc = some doneAbc ∧ doneAbc.running = false ∧
    ∃ pre ev post u, typeAbc = pre ++ ev :: post ∧
      readpw (ctxAbc false) garbage7 pre = some u ∧ u.running = true ∧
      handleEvent (ctxAbc false) u ev = some doneAbc ∧ isSubmitKey ev ∧
      verifies (ctxAbc false) u :=
  ⟨rfl, rfl,
   (C2_loop_ends_only_on_verified_submit (ctxAbc false) garbage7 typeAbc doneAbc rfl
      rfl).1⟩


/-! ## Further lemmas for the buffer claims -/

theorem handleEvent_submit_zeroes (c : Ctx) {s : State} {ev : XEvent} (hk : isSubmitKey ev)
    (hl : s.len < sizeofPasswd) :
    ∃ t, handleEvent c s ev = some t ∧ t.len = 0 ∧ t.passwd = List.replicate 256 0 := by
  simp only [handleEvent, hk.1, if_true, keypress_submit c s ev hk.2, submit, hl]
  refine ⟨_, rfl, ?_⟩
  rw [(recolor_fields c _).2.1, (recolor_fields c _).1]
  exact ⟨rfl, rfl⟩

theorem handleEvent_cancel (c : Ctx) (s : State) {ev : XEvent} (hk : isCancelKey ev) :
    handleEvent c s ev = some (recolor c (cancel s)) := by
  obtain ⟨hty, hk⟩ := hk
  have hn : normKeypad XK_Escape = XK_Escape := by decide
  have hd : ¬ discarded XK_Escape := by decide
  have hm : isMediaKey XK_Escape = false := by decide
  have h1 : XK_Escape ≠ XK_Return := by decide
  unfold handleEvent
  rw [if_pos hty]
  unfold keypress
  rw [hk, hn, if_neg hd]
  unfold switchKey
  simp [hm, h1]

theorem handleEvent_delete (c : Ctx) (s : State) {ev : XEvent} (hk : isDeleteKey ev) :
    handleEvent c s ev = (deleteLast s).map (recolor c) := by
  obtain ⟨hty, hk⟩ := hk
  have hn : normKeypad XK_BackSpace = XK_BackSpace := by decide
  have hd : ¬ discarded XK_BackSpace := by decide
  have hm : isMediaKey XK_BackSpace = false := by decide
  have h1 : XK_BackSpace ≠ XK_Return := by decide
  have h2 : XK_BackSpace ≠ XK_Escape := by decide
  unfold handleEvent
  rw [if_pos hty]
  unfold keypress
  rw [hk, hn, if_neg hd]
  unfold switchKey
  simp [hm, h1, h2]

theorem recolor_log (c : Ctx) (s : State) : ∀ a ∈ s.log, a ∈ (recolor c s).log := by
  intro a ha
  unfold recolor
  split
  · simp [ha]
  · exact ha

theorem delete_step (c : Ctx) {s : State} {ev : XEvent} (hs : Inv s) (hk : isDeleteKey ev) :
    ∃ t, handleEvent c s ev = some t ∧ t.len = s.len - 1 ∧ t.running = s.running ∧ Inv t ∧
      ∀ a ∈ s.log, a ∈ t.log := by
  obtain ⟨u, hu, hi⟩ := inv_deleteLast hs
  have hlen : u.len = s.len - 1 ∧ u.log = s.log := by
    unfold deleteLast at hu
    split at hu
    · split at hu
      · simp only [Option.some.injEq] at hu; subst hu; exact ⟨rfl, rfl⟩
      · simp at hu
    · next h0 =>
      simp only [Option.some.injEq] at hu; subst hu
      simp only [ne_eq, not_not] at h0
      exact ⟨by omega, rfl⟩
  refine ⟨recolor c u, by rw [handleEvent_delete c s hk, hu]; rfl, ?_, ?_, inv_recolor c hi, ?_⟩
  · rw [(recolor_fields c u).2.1, hlen.1]
  · rw [recolor_running, deleteLast_running hu]
  · intro a ha
    exact recolor_log c u a (by rw [hlen.2]; exact ha)

theorem deletes_run (c : Ctx) (dels : List XEvent) :
    ∀ s : State, Inv s → s.running = true → (∀ ev ∈ dels, isDeleteKey ev) →
      ∃ t, readpwLoop c s dels = some t ∧ t.len = s.len - dels.length ∧ Inv t ∧
        ∀ a ∈ s.log, a ∈ t.log := by
  induction dels with
  | nil => intro s hs _ _; exact ⟨s, rfl, by simp, hs, fun _ h => h⟩
  | cons ev dels ih =>
    intro s hs hr hk
    obtain ⟨u, hu, hl, hur, hi, hlog⟩ := delete_step c hs (hk ev (by simp))
    obtain ⟨t, ht, htl, hti, htlog⟩ :=
      ih u hi (by rw [hur, hr]) (fun e he => hk e (by simp [he]))
    refine ⟨t, by rw [readpwLoop_cons c hr hu]; exact ht, ?_, hti,
      fun a ha => htlog a (hlog a ha)⟩
    rw [htl, hl]; simp only [List.length_cons]; omega

theorem keypress_oldc (c : Ctx) {s t : State} {ev : XEvent} (hty : ev.type = KeyPress)
    (hd : ¬ discarded (normKeypad ev.ksym)) (h : handleEvent c s ev = some t)
    (ht : t.running = true) : t.oldc = color c t.len t.failure := by
  unfold handleEvent at h
  rw [if_pos hty] at h
  unfold keypress at h
  rw [if_neg hd] at h
  simp only [Option.map_eq_some'] at h
  obtain ⟨u, _, rfl⟩ := h
  rw [recolor_running] at ht
  rw [recolor_oldc c ht, (recolor_fields c u).2.1, (recolor_fields c u).2.2.2.1]

/-- The embedding reports an access outside `passwd` as `none`. -/
theorem out_of_bounds_is_none (c : Ctx) (s : State) (h : sizeofPasswd ≤ s.len) :
    submit c s = none ∧ (sizeofPasswd < s.len → deleteLast s = none) := by
  constructor
  · simp only [submit]; rw [if_neg (by omega)]
  · intro h2
    simp only [deleteLast]
    rw [if_pos (by simp only [sizeofPasswd] at h; omega), if_neg (by omega)]


/-- C6. After any sequence of events (each key translation within `buf`), `readpw` is in a
state where every byte of `passwd` that a `memcpy` of the append branch has written and
whose index is at or beyond the current `len` holds 0.  In particular a press of Return or
keypad Enter (matching or not) and a press of Escape leave all 256 bytes zero, and
BackSpace presses that take the length down to 0 leave every byte that had been typed zero. -/
theorem C6_removed_bytes_are_zero (c : Ctx) (garbage : List Nat) (evs : List XEvent)
    (hg : garbage.length = sizeofPasswd) (hb : ∀ ev ∈ evs, ev.str.length ≤ sizeofBuf) :
    ∃ s, readpw c garbage evs = some s ∧
      (∀ d n i, Action.memcpy d n ∈ s.log → d ≤ i → i < d + n → s.len ≤ i →
        s.passwd[i]? = some 0) ∧
      (∀ ev, isSubmitKey ev ∨ isCancelKey ev →
        ∃ t, handleEvent c s ev = some t ∧ t.len = 0 ∧ t.passwd = List.replicate 256 0) ∧
      (s.running = true → ∀ dels : List XEvent, (∀ ev ∈ dels, isDeleteKey ev) →
        s.len ≤ dels.length →
        ∃ t, readpwLoop c s dels = some t ∧ t.len = 0 ∧
          ∀ d n i, Action.memcpy d n ∈ s.log → d ≤ i → i < d + n → t.passwd[i]? = some 0) := by
  obtain ⟨s, hs, hi⟩ := inv_readpwLoop c evs (initState garbage) (inv_init garbage hg) hb
  refine ⟨s, hs, hi.wiped, ?_, ?_⟩
  · intro ev hk
    rcases hk with hk | hk
    · exact handleEvent_submit_zeroes c hk hi.room
    · refine ⟨_, handleEvent_cancel c s hk, ?_⟩
      rw [(recolor_fields c _).2.1, (recolor_fields c _).1]
      exact ⟨rfl, rfl⟩
  · intro hr dels hk hlen
    obtain ⟨t, ht, htl, hti, hlog⟩ := deletes_run c dels s hi hr hk
    have h0 : t.len = 0 := by omega
    refine ⟨t, ht, h0, ?_⟩
    intro d n i hm hd hn
    exact hti.wiped d n i (hlog _ hm) hd hn (by omega)

/-- C6 on the run that types "abc" and then presses BackSpace twice. -/
theorem C6_removed_bytes_are_zero_witness :
    garbage7.length = sizeofPasswd ∧
    (∀ ev ∈ [key 97 [97], key 98 [98], key 99 [99], key XK_BackSpace [8],
        key XK_BackSpace [8]], ev.str.length ≤ sizeofBuf) ∧
    ∃ s, readpw (ctxAbc false) garbage7 [key 97 [97], key 98 [98], key 99 [99],
        key XK_BackSpace [8], key XK_BackSpace [8]] = some s ∧
      ∀ d n i, Action.memcpy d n ∈ s.log → d ≤ i → i < d + n → s.len ≤ i →
        s.passwd[i]? = some 0 :=
  ⟨List.length_replicate 256 7, by decide,
   (C6_removed_bytes_are_zero (ctxAbc false) garbage7 _ (List.length_replicate 256 7)
      (by decide)).imp
     (fun _ h => ⟨h.1, h.2.1⟩)⟩

/-- C7, as the code has it.  From a loop state with an empty buffer, after N key presses that
each reach the `default` branch of the switch with one non-control byte, the length is
`min N 255` (255 being `sizeof passwd - 1`: the last byte is kept for the terminator written
on submit); and once 255 is reached, a further such key press changes nothing at all. -/
theorem C7_printable_keys_fill_to_255 (c : Ctx) (s : State) (evs : List XEvent)
    (h0 : s.len = 0) (hr : s.running = true) (hz : s.passwd.length = sizeofPasswd)
    (hp : ∀ ev ∈ evs, isPrintableKey c ev) :
    ∃ t, readpwLoop c s evs = some t ∧ t.len = min evs.length 255 ∧
      (255 ≤ evs.length → ∀ ev, isPrintableKey c ev → handleEvent c t ev = some t) := by
  obtain ⟨t, ht, hl, htr, htz, hto⟩ :=
    printable_run c evs s hz (by rw [h0]; decide) hr hp
  rw [h0, Nat.zero_add] at hl
  refine ⟨t, ht, hl, ?_⟩
  intro hN ev hev
  have hne : evs ≠ [] := by
    intro e; rw [e] at hN; simp at hN
  have h255 : t.len = 255 := by rw [hl]; omega
  obtain ⟨u, hu, _, _, _, _, hsame⟩ :=
    printable_step c hev htz (by rw [h255]; decide) htr
  rw [hu, hsame h255 (hto hne)]

/-- C7 on three presses of the key `a` from the initial state: length 3. -/
theorem C7_printable_keys_fill_to_255_witness :
    (initState garbage7).len = 0 ∧ (initState garbage7).running = true ∧
    (initState garbage7).passwd.length = sizeofPasswd ∧
    (∀ ev ∈ List.replicate 3 (key XK_a [97]), isPrintableKey (ctxAbc false) ev) ∧
    ∃ t, readpwLoop (ctxAbc false) (initState garbage7) (List.replicate 3 (key XK_a [97]))
        = some t ∧ t.len = 3 :=
  ⟨rfl, rfl, List.length_replicate 256 7, by decide,
   (C7_printable_keys_fill_to_255 (ctxAbc false) (initState garbage7)
      (List.replicate 3 (key XK_a [97])) rfl rfl (List.length_replicate 256 7)
      (by decide)).imp
     (fun _ h => ⟨h.1, h.2.1⟩)⟩

/-- C7 as stated fails: after 256 presses of the key `a` from the initial state the length is
255, not `min 256 256`. -/
theorem C7_counterexample :
    ∃ t, readpw (ctxAbc false) garbage7 (List.replicate 256 (key XK_a [97])) = some t ∧
      t.len = 255 ∧ t.len ≠ min 256 sizeofPasswd := by
  have hp : ∀ ev ∈ List.replicate 256 (key XK_a [97]), isPrintableKey (ctxAbc false) ev := by
    intro ev hev
    rw [List.eq_of_mem_replicate hev]
    decide
  obtain ⟨t, ht, hl, _⟩ :=
    printable_run (ctxAbc false) _ (initState garbage7)
      (List.length_replicate 256 7) (by decide) rfl hp
  refine ⟨t, ht, ?_⟩
  have : t.len = 255 := by
    rw [hl, List.length_replicate]; rfl
  rw [this]
  decide

/-- C8, as the code has it.  The colour computed after a key press depends on the length, the
failure flag and `failonclear`: a non-empty buffer gives INPUT; an empty buffer gives FAILED
when the failure flag is set or `failonclear` is set, and INIT only when both are clear.  It
is the colour on display after every key press that reaches the switch while the loop keeps
running. -/
theorem C8_color_of_len_failure_failonclear (c : Ctx) (len : Nat) (failure : Bool) :
    (len ≠ 0 → color c len failure = INPUT) ∧
    (len = 0 → failure = true → color c len failure = FAILED) ∧
    (len = 0 → failure = false → c.failonclear = false → color c len failure = INIT) ∧
    (len = 0 → failure = false → c.failonclear = true → color c len failure = FAILED) ∧
    (∀ (s t : State) (ev : XEvent), ev.type = KeyPress → ¬ discarded (normKeypad ev.ksym) →
      handleEvent c s ev = some t → t.running = true → t.oldc = color c t.len t.failure) := by
  refine ⟨?_, ?_, ?_, ?_, ?_⟩
  · intro h; simp [color, h]
  · intro h hf; simp [color, h, hf]
  · intro h hf hc; simp [color, h, hf, hc]
  · intro h hf hc; simp [color, h, hf, hc]
  · intro s t ev hty hd h ht; exact keypress_oldc c hty hd h ht

/-- C8 with `failonclear` clear: an empty buffer and no failure give INIT. -/
theorem C8_color_of_len_failure_failonclear_witness :
    color (ctxAbc false) 0 false = INIT :=
  (C8_color_of_len_failure_failonclear (ctxAbc false) 0 false).2.2.1 rfl rfl rfl

/-- C8 as stated fails: with `failonclear` set, length 0 and a clear failure flag give
FAILED, not INIT. -/
theorem C8_counterexample :
    color (ctxAbc true) 0 false = FAILED ∧ ¬ (color (ctxAbc true) 0 false = INIT) := by
  decide

theorem repaint_eq_paintEvery (ls : List Lock) : repaint ls = paintEvery ls := by
  induction ls with
  | nil => rfl
  | cons l ls ih => simp [repaint, ih, paintEvery, List.flatMap_cons]

theorem recolor_first_clear (c : Ctx) {s : State} (h0 : s.len = 0) (hr : s.running = true)
    (hfc : c.failonclear = true) (hinit : s.oldc = INIT) :
    (recolor c s).oldc = FAILED ∧ (recolor c s).log = s.log ++ paintEvery c.locks := by
  have hcol : color c s.len s.failure = FAILED := by simp [color, h0, hfc]
  have hne : s.oldc ≠ FAILED := by rw [hinit]; decide
  unfold recolor
  rw [hcol, if_pos ⟨hr, hne⟩]
  exact ⟨rfl, by rw [repaint_eq_paintEvery]⟩

/-- C9, as the code has it.  In every state `readpw` reaches with an empty buffer while
running, one or more BackSpace presses leave the buffer bytes, the length (no underflow),
the failure flag and the running flag as they were, and the colour on display afterwards is
the one computed for an empty buffer.  Nothing at all changes (no transition, no repaint)
when `failonclear` is clear or the display no longer shows INIT.  When `failonclear` is set
and the display still shows INIT, the display moves to FAILED and the log grows by exactly
one repaint of every screen (background and clear, screen by screen).  In every case the
first press alone already gives the final state, and a further press changes nothing. -/
theorem C9_delete_on_empty_buffer (c : Ctx) (garbage : List Nat) (evs : List XEvent)
    (s : State) (dels : List XEvent) (hreach : readpw c garbage evs = some s)
    (h0 : s.len = 0) (hr : s.running = true) (hk : ∀ ev ∈ dels, isDeleteKey ev)
    (hlen : 1 ≤ dels.length) :
    ∃ t, readpwLoop c s dels = some t ∧ t.passwd = s.passwd ∧ t.len = 0 ∧
      t.failure = s.failure ∧ t.running = true ∧ t.oldc = color c 0 s.failure ∧
      (c.failonclear = false ∨ s.oldc ≠ INIT → t = s) ∧
      (c.failonclear = true → s.oldc = INIT →
        t.oldc = FAILED ∧ t.log = s.log ++ paintEvery c.locks) ∧
      (∀ ev, isDeleteKey ev → handleEvent c s ev = some t) ∧
      (∀ ev, isDeleteKey ev → handleEvent c t ev = some t) := by
  have hne : dels ≠ [] := by
    intro e; rw [e] at hlen; simp at hlen
  have hf := recolor_fields c s
  refine ⟨recolor c s, deletes_on_empty c dels s h0 hr hk hne, hf.1, by rw [hf.2.1, h0],
    hf.2.2.2.1, by rw [hf.2.2.1, hr], by rw [recolor_oldc c hr, h0], ?_,
    fun hfc hinit => recolor_first_clear c h0 hr hfc hinit,
    fun ev hev => handleEvent_delete_empty c hev h0, ?_⟩
  · intro hcase
    have hsh := shown_readpwLoop c evs (initState garbage) s hreach (shown_init c garbage) hr
    apply recolor_shown
    rcases hsh with hsh | ⟨hfc, hinit⟩
    · exact hsh
    · rcases hcase with hcase | hcase
      · rw [hcase] at hfc; simp at hfc
      · exact absurd hinit hcase
  · intro ev hev
    rw [handleEvent_delete_empty c hev (by rw [hf.2.1, h0]), recolor_idem]

/-- C9 with `failonclear` set: two BackSpace presses in the initial state move the display to
FAILED and repaint the one screen once. -/
theorem C9_delete_on_empty_buffer_witness :
    readpw (ctxAbc true) garbage7 [] = some (initState garbage7) ∧
    (initState garbage7).len = 0 ∧ (initState garbage7).running = true ∧
    (∀ ev ∈ [key XK_BackSpace [8], key XK_BackSpace [8]], isDeleteKey ev) ∧
    1 ≤ [key XK_BackSpace [8], key XK_BackSpace [8]].length ∧
    ∃ t, readpwLoop (ctxAbc true) (initState garbage7)
        [key XK_BackSpace [8], key XK_BackSpace [8]] = some t ∧
      t.passwd = garbage7 ∧ t.len = 0 ∧ t.oldc = FAILED ∧
      t.log = [Action.setBackground 2 3, Action.clearWindow 2] := by
  refine ⟨rfl, rfl, rfl, by decide, by decide, ?_⟩
  obtain ⟨t, ht, hp, hl, _, _, _, _, hpaint, _, _⟩ :=
    C9_delete_on_empty_buffer (ctxAbc true) garbage7 [] (initState garbage7)
      [key XK_BackSpace [8], key XK_BackSpace [8]] rfl rfl rfl (by decide) (by decide)
  exact ⟨t, ht, hp, hl, (hpaint rfl rfl).1, (hpaint rfl rfl).2⟩

/-- C9 as stated fails: with `failonclear` set, one BackSpace in the initial state (empty
buffer) moves the display from INIT to FAILED and repaints the screen. -/
theorem C9_counterexample :
    ∃ t, handleEvent (ctxAbc true) (initState garbage7) (key XK_BackSpace [8]) = some t ∧
      (initState garbage7).len = 0 ∧ (initState garbage7).oldc = INIT ∧ t.oldc = FAILED ∧
      t.log = [Action.setBackground 2 3, Action.clearWindow 2] :=
  ⟨_, rfl, rfl, rfl, rfl, rfl⟩

/-- C10. For every sequence of events in which each key translation yields at most 32 bytes,
after every event `readpw` has not left its arrays (the embedding returns a state), `len` is
at most 255, the array still has its 256 bytes, every `memcpy` of the append branch ended at
or below index 255, and handling one more such event stays inside the arrays as well. -/
theorem C10_len_stays_below_array_size (c : Ctx) (garbage : List Nat) (evs : List XEvent)
    (hg : garbage.length = sizeofPasswd) (hb : ∀ ev ∈ evs, ev.str.length ≤ 32) (k : Nat) :
    ∃ s, readpw c garbage (evs.take k) = some s ∧ s.len ≤ 255 ∧ s.passwd.length = 256 ∧
      (∀ d n, Action.memcpy d n ∈ s.log → d + n ≤ 255) ∧
      (∀ ev : XEvent, ev.str.length ≤ 32 → ∃ t, handleEvent c s ev = some t ∧ t.len ≤ 255) := by
  have hb2 : ∀ ev ∈ evs.take k, ev.str.length ≤ sizeofBuf :=
    fun ev hev => hb ev (List.mem_of_mem_take hev)
  obtain ⟨s, hs, hi⟩ := inv_readpwLoop c (evs.take k) (initState garbage) (inv_init garbage hg) hb2
  have hroom := hi.room
  simp only [sizeofPasswd] at hroom
  refine ⟨s, hs, by omega, hi.size, ?_, ?_⟩
  · intro d n h
    have := hi.bound d n h
    simp only [sizeofPasswd] at this
    omega
  · intro ev hev
    obtain ⟨t, ht, hti⟩ := inv_handleEvent c hi ev hev
    have := hti.room
    simp only [sizeofPasswd] at this
    exact ⟨t, ht, by omega⟩

/-- C10 on the run that types "abc" and presses Return, after each of its four events. -/
theorem C10_len_stays_below_array_size_witness :
    garbage7.length = sizeofPasswd ∧ (∀ ev ∈ typeAbc, ev.str.length ≤ 32) ∧
    ∀ k, ∃ s, readpw (ctxAbc false) garbage7 (typeAbc.take k) = some s ∧ s.len ≤ 255 :=
  ⟨List.length_replicate 256 7, by decide,
   fun k => (C10_len_stays_below_array_size (ctxAbc false) garbage7 typeAbc
      (List.length_replicate 256 7) (by decide) k).imp (fun _ h => ⟨h.1, h.2.1⟩)⟩

end Slock
